import Mathlib

/-!
Verification of the run/capture scheduling and signal-synchronization core of
the MycoRobo3D-DIC automated image acquisition system.

The Lean definitions below are a shallow embedding of the Python sources:

* `src/src/Arduino.py`    — `ArduinoController` (pin dictionaries, edge detection)
* `src/src/Experiment.py` — `Experiment` (run loop, capture handshake, break
  timing, exposure table persistence, teardown)
* `src/src/util.py`       — `validate_config`
* `src/src/Camera.py`     — only its interface behavior (frame grab result,
  auto exposure returning an int) is reflected in the environment inputs.

Python strings that matter for parsing are modelled as `List Char`; machine
time values (`time.time()`) and sleep durations are modelled as integers in
milliseconds (every time constant in the code — the 0.01 s poll period, the
1 s handshake and break delays, the 30 s reinit threshold and
`interval_minutes * 60` — is exact in milliseconds, and the scheduling claims
are order and arithmetic claims invariant under this scaling); side effects
are modelled as explicit event traces.
-/

/-! ## Arduino controller model (src/src/Arduino.py)

The controller keeps `input_pins` (which pins were configured via
`setup_digital_input`) and `prev_states` (a Python dict from pin number to the
previously read boolean level).  `read_digital` returns the raw level, with
`None` mapped to `False`, and `False` for unconfigured pins. -/

/-- Python dict get on an association list of pin states. -/
def dictGet (d : List (Nat × Bool)) (pin : Nat) : Option Bool :=
  (d.find? (fun q => q.1 == pin)).map (fun q => q.2)

/-- Python dict assignment `d[pin] = b` on an association list. -/
def dictSet (d : List (Nat × Bool)) (pin : Nat) (b : Bool) : List (Nat × Bool) :=
  if d.any (fun q => q.1 == pin) then
    d.map (fun q => if q.1 == pin then (pin, b) else q)
  else
    d ++ [(pin, b)]

/-- State of `ArduinoController` relevant to input-pin edge detection. -/
structure ArduinoController where
  inputPins : List Nat
  prevStates : List (Nat × Bool)
  deriving DecidableEq

/-- `ArduinoController.read_digital`: the raw pin level read from firmata;
`None` (modelled as `none`) maps to `False`, unconfigured pins read `False`. -/
def read_digital (c : ArduinoController) (pin : Nat) (level : Option Bool) : Bool :=
  if pin ∈ c.inputPins then level.getD false else false

/-- `ArduinoController.check_rising_edge`: compares the newly read level with
the stored previous level, updates `prev_states`, and reports a LOW to HIGH
transition.  Returns the boolean result and the updated controller. -/
def check_rising_edge (c : ArduinoController) (pin : Nat) (level : Option Bool) :
    Bool × ArduinoController :=
  if pin ∉ c.inputPins then (false, c)
  else
    let current := read_digital c pin level
    let prev := (dictGet c.prevStates pin).getD current
    let c2 := { c with prevStates := dictSet c.prevStates pin current }
    (!prev && current, c2)

/-- Feed a sequence of read levels to `check_rising_edge` on one pin,
collecting the boolean results. -/
def runRisingEdges (c : ArduinoController) (pin : Nat) :
    List (Option Bool) → List Bool × ArduinoController
  | [] => ([], c)
  | l :: ls =>
    let r := check_rising_edge c pin l
    let rest := runRisingEdges r.2 pin ls
    (r.1 :: rest.1, rest.2)

/-- Spec-side definition, following the claim wording: given the previous
level, the output for each newly read level is `true` exactly when the level
is HIGH and the previous level was LOW (one `true` per LOW to HIGH transition,
never on sustained HIGH, never on HIGH to LOW). -/
def specRisingEdges (prev : Bool) : List Bool → List Bool
  | [] => []
  | l :: ls => (l && !prev) :: specRisingEdges l ls

theorem dictGet_cons_ne (q : Nat × Bool) (t : List (Nat × Bool)) (pin : Nat)
    (h : (q.1 == pin) = false) : dictGet (q :: t) pin = dictGet t pin := by
  unfold dictGet
  rw [List.find?_cons_of_neg _ (by simp [h])]

theorem dictGet_append_single (l : List (Nat × Bool)) (pin : Nat) (b : Bool)
    (h : l.any (fun r => r.1 == pin) = false) :
    dictGet (l ++ [(pin, b)]) pin = some b := by
  induction l with
  | nil => simp [dictGet]
  | cons q rest ih =>
    simp only [List.any_cons, Bool.or_eq_false_iff] at h
    rw [List.cons_append, dictGet_cons_ne _ _ _ h.1]
    exact ih h.2

theorem dictGet_dictSet (d : List (Nat × Bool)) (pin : Nat) (b : Bool) :
    dictGet (dictSet d pin b) pin = some b := by
  induction d with
  | nil => simp [dictGet, dictSet]
  | cons q rest ih =>
    by_cases hq : q.1 = pin
    · simp [dictGet, dictSet, hq]
    · have hq' : (q.1 == pin) = false := by simp [hq]
      rcases ha : rest.any (fun r => r.1 == pin) with _ | _
      · have hset : dictSet (q :: rest) pin b = (q :: rest) ++ [(pin, b)] := by
          simp [dictSet, hq', ha]
        rw [hset, List.cons_append, dictGet_cons_ne _ _ _ hq']
        exact dictGet_append_single rest pin b ha
      · have hset : dictSet (q :: rest) pin b =
            q :: rest.map (fun r => if r.1 == pin then (pin, b) else r) := by
          simp only [dictSet, List.any_cons, ha, hq', Bool.false_or, if_pos,
            List.map_cons]
          rw [if_neg (by simp [hq])]
        have hset2 : dictSet rest pin b =
            rest.map (fun r => if r.1 == pin then (pin, b) else r) := by
          simp [dictSet, ha]
        rw [hset, dictGet_cons_ne _ _ _ hq', ← hset2]
        exact ih

theorem runRisingEdges_eq_spec (ls : List Bool) :
    ∀ (c : ArduinoController) (pin : Nat) (p : Bool),
      pin ∈ c.inputPins → dictGet c.prevStates pin = some p →
      (runRisingEdges c pin (ls.map some)).1 = specRisingEdges p ls := by
  induction ls with
  | nil => intro c pin p _ _; simp [runRisingEdges, specRisingEdges]
  | cons l ls ih =>
    intro c pin p hpin hprev
    have hcre : check_rising_edge c pin (some l) =
        (!p && l, { c with prevStates := dictSet c.prevStates pin l }) := by
      simp [check_rising_edge, read_digital, hpin, hprev]
    have hrest :
        (runRisingEdges { c with prevStates := dictSet c.prevStates pin l }
          pin (ls.map some)).1 = specRisingEdges l ls := by
      exact ih _ pin l hpin (dictGet_dictSet _ _ _)
    simp [runRisingEdges, specRisingEdges, hcre, hrest, Bool.and_comm]

/-- Claim C1: for every configured input pin and every sequence of boolean
levels read from it, `check_rising_edge` returns true exactly once per LOW to
HIGH transition of the read level, and returns false on a sustained HIGH and
on every HIGH to LOW transition: the outputs coincide with `specRisingEdges`,
which emits true exactly when the current level is HIGH and the previous level
was LOW. -/
theorem C1_check_rising_edge_correct (c : ArduinoController) (pin : Nat)
    (p : Bool) (levels : List Bool)
    (hpin : pin ∈ c.inputPins) (hprev : dictGet c.prevStates pin = some p) :
    (runRisingEdges c pin (levels.map some)).1 = specRisingEdges p levels :=
  runRisingEdges_eq_spec levels c pin p hpin hprev

/-- Witness for C1 on a concrete pin and level sequence; the level sequence
LOW, HIGH, HIGH, LOW, HIGH yields exactly one true per LOW to HIGH edge. -/
theorem C1_check_rising_edge_correct_witness :
    (6 ∈ (ArduinoController.mk [6] [(6, false)]).inputPins ∧
      dictGet (ArduinoController.mk [6] [(6, false)]).prevStates 6 = some false) ∧
    (runRisingEdges (ArduinoController.mk [6] [(6, false)]) 6
        ([false, true, true, false, true].map some)).1 =
      specRisingEdges false [false, true, true, false, true] :=
  ⟨⟨by decide, by decide⟩,
    C1_check_rising_edge_correct _ 6 false _ (by decide) (by decide)⟩


/-! ## Python string and number model for the exposure table
(src/src/Experiment.py, `save_exposure_table` / `load_exposure_table`)

Python strings are modelled as `List Char`.  Only the behavior exercised by
the exposure table file matters: `str()` rendering of ints and floats,
`str.strip()`, `str.isnumeric()` (on the ASCII strings the table contains,
equivalent to: nonempty and all characters are decimal digits), `int()`
parsing, and `float()` of a digit string. -/

def isDigitChar (c : Char) : Bool := 48 ≤ c.toNat && c.toNat ≤ 57

def isSpaceChar (c : Char) : Bool :=
  c = ' ' || c = '\t' || c = '\n' || c = '\r'

def digitChar (d : Nat) : Char := Char.ofNat (48 + d)

def digitVal (c : Char) : Nat := c.toNat - 48

/-- `str.strip()`: remove whitespace from both ends. -/
def pyTrim (cs : List Char) : List Char :=
  ((cs.dropWhile isSpaceChar).reverse.dropWhile isSpaceChar).reverse

/-- `str.isnumeric()` restricted to the ASCII strings written by the code. -/
def pyIsNumeric (cs : List Char) : Bool := !cs.isEmpty && cs.all isDigitChar

/-- Decimal digits of `n`, least significant first, via structural fuel
recursion (`n` itself bounds the number of divisions by ten). -/
def natDigitsRevFuel : Nat → Nat → List Nat
  | 0, _ => []
  | fuel + 1, n => if n = 0 then [] else n % 10 :: natDigitsRevFuel fuel (n / 10)

def natDigitsRev (n : Nat) : List Nat := natDigitsRevFuel n n

/-- Python `str()` of a natural number. -/
def natDigits (n : Nat) : List Char :=
  if n = 0 then ['0'] else ((natDigitsRev n).reverse).map digitChar

/-- Python `str()` of an int. -/
def pyStrInt (i : Int) : List Char :=
  if i < 0 then '-' :: natDigits i.natAbs else natDigits i.toNat

/-- Numeric value of a digit string, as computed by `int()` on its digits. -/
def digitsVal (cs : List Char) : Nat :=
  cs.foldl (fun a c => a * 10 + digitVal c) 0

/-- Python `int(s)`: strip whitespace, optional sign, then decimal digits;
anything else raises `ValueError`, modelled as `none`. -/
def pyParseInt (cs : List Char) : Option Int :=
  match pyTrim cs with
  | '-' :: rest => if pyIsNumeric rest then some (-(digitsVal rest : Int)) else none
  | '+' :: rest => if pyIsNumeric rest then some ((digitsVal rest : Int)) else none
  | t => if pyIsNumeric t then some ((digitsVal t : Int)) else none

/-- A Python numeric value as stored in `sample_exposures`: either an int
(the value returned by `Camera.set_auto_exposure`) or a float with the given
integer part and decimal fraction digits (finite decimal representation, the
form `str()` renders for the floats the table can contain). -/
inductive PyNum where
  | int : Int → PyNum
  | float : Nat → List Nat → PyNum
  deriving DecidableEq

/-- Python `str()` of the numeric value, as written by `csv.writer`. -/
def pyStrNum : PyNum → List Char
  | PyNum.int i => pyStrInt i
  | PyNum.float ip ds => natDigits ip ++ '.' :: ds.map digitChar

/-- Value of a list of decimal digits, most significant first. -/
def valOfDigits (ds : List Nat) : Nat := ds.foldl (fun a d => a * 10 + d) 0

/-- Numeric value of a `PyNum`, as a rational. -/
def pyRat : PyNum → ℚ
  | PyNum.int i => (i : ℚ)
  | PyNum.float ip ds => (ip : ℚ) + (valOfDigits ds : ℚ) / ((10 : ℚ) ^ ds.length)

/-- One cell of the persisted table: `exp if exp is not None else "None"`. -/
def renderCell : Option PyNum → List Char
  | none => "None".data
  | some v => pyStrNum v

/-- `Experiment.save_exposure_table`: the rows written below the header, one
row `(str(sample_index), str(value))` per sample. -/
def save_exposure_table (table : List (Option PyNum)) :
    List (List Char × List Char) :=
  table.enum.map (fun p => (natDigits p.1, renderCell p.2))

/-- Python list assignment `l[idx] = v` with negative-index support;
`none` models `IndexError`. -/
def listSetPy (l : List (Option PyNum)) (idx : Int) (v : Option PyNum) :
    Option (List (Option PyNum)) :=
  if 0 ≤ idx ∧ idx < (l.length : Int) then some (l.set idx.toNat v)
  else if -(l.length : Int) ≤ idx ∧ idx < 0 then
    some (l.set (l.length - (-idx).toNat) v)
  else none

/-- One iteration of the row loop in `load_exposure_table`:
`idx = int(row[sample_index]); val = row[exposure_time].strip();`
then store `float(val)` if `val.isnumeric()` else `None`.
`none` models an exception (`ValueError` from `int`, or `IndexError`). -/
def loadRow (t : List (Option PyNum)) (row : List Char × List Char) :
    Option (List (Option PyNum)) :=
  match pyParseInt row.1 with
  | none => none
  | some idx =>
    let val := pyTrim row.2
    let cell := if pyIsNumeric val then some (PyNum.float (digitsVal val) [0])
                else none
    listSetPy t idx cell

/-- The row loop of `load_exposure_table`.  The boolean records whether an
exception escaped the loop (it is caught by the surrounding handler, which
only logs an error): on an exception the rows processed so far are kept and
the remaining rows are dropped. -/
def loadRows : List (Option PyNum) → List (List Char × List Char) →
    List (Option PyNum) × Bool
  | t, [] => (t, false)
  | t, r :: rs =>
    match loadRow t r with
    | some t2 => loadRows t2 rs
    | none => (t, true)

/-- `Experiment.load_exposure_table` on an existing file with the given data
rows: starts from `[None] * num_samples` and applies the row loop. -/
def load_exposure_table (numSamples : Nat)
    (rows : List (List Char × List Char)) : List (Option PyNum) × Bool :=
  loadRows (List.replicate numSamples none) rows


/-! ## Experiment model (src/src/Experiment.py)

Side effects are recorded as events.  Time values and sleep durations are
integers in milliseconds. -/

/-- Observable effects of the experiment code. -/
inductive Event where
  /-- `set_digital(DI_RUN_pin, b)` -/
  | setRun : Bool → Event
  /-- `set_digital(DI_CAPTURE_COMPLETE_pin, b)` -/
  | setCaptureComplete : Bool → Event
  /-- `time.sleep` with the given duration in milliseconds -/
  | sleepFor : Int → Event
  /-- warning logged for a capture signal beyond `num_samples` -/
  | warnExtraSignal : Event
  /-- `set_auto_exposure(Once)` for a sample, returning the detected value -/
  | autoExpose : Nat → Int → Event
  /-- `set_manual_exposure` with a previously learned value for a sample -/
  | applyStoredExposure : Nat → Event
  /-- one image file written: sample index, visit count, camera index -/
  | saveImage : Nat → Nat → Nat → Event
  /-- one CSV capture row written: run count, sample index, camera index -/
  | csvRow : Nat → Nat → Nat → Event
  /-- error logged because `grab_frames` returned no frames -/
  | errorNoFrames : Nat → Event
  /-- `save_exposure_table` invoked -/
  | saveTable : Event
  /-- `close_cameras` invoked -/
  | closeCamerasEvt : Event
  /-- `reinitialize_cameras` invoked during a break -/
  | reinitCamerasEvt : Event
  /-- warning logged because no break time is left -/
  | warnNoBreakTime : Event
  /-- `generate_pdf_report` invoked by `terminate_experiment`.  The call
  never completes: `util.generate_pdf_report` reads `get_folder_size`
  (src/src/util.py line 164), a name neither defined nor imported in that
  module, so after its initial logging and `strptime` lines it raises
  `NameError` and no PDF is ever produced. -/
  | reportAttempt : Event
  /-- `arduino.close()` invoked by `cleanup` -/
  | closeArduino : Event
  /-- CSV log file closed by `cleanup` -/
  | closeCsv : Event
  deriving DecidableEq

/-- The `Experiment` attributes the scheduling core reads and writes.  The
two owned output pin levels are tracked directly. -/
structure ExpState where
  exposureMode : String
  numSamples : Nat
  /-- `interval_minutes` from the configuration -/
  intervalMinutes : Int
  /-- `interval_calculation_mode` from the configuration -/
  intervalMode : String
  turnOffCameras : Bool
  totalRuns : Int
  /-- `sample_exposures`: `none` models Python `None` (no table yet) -/
  sampleExposures : Option (List (Option PyNum))
  visitCounts : List Nat
  runCount : Nat
  runStartTime : Option Int
  nextRunStartTime : Option Int
  /-- level of the DI_RUN output pin -/
  diRun : Bool
  /-- level of the DI_CAPTURE_COMPLETE output pin -/
  diCaptureComplete : Bool
  csvClosed : Bool
  deriving DecidableEq

/-- Environment of one capture: the value `set_auto_exposure(Once)` would
return (an int, see `Camera.set_auto_exposure`), and the frames returned by
`grab_frames` (identified by numbers; the empty list is a total grab
failure). -/
structure CaptureEnv where
  detectedExposure : Int
  frames : List Nat
  deriving DecidableEq

/-- `Experiment.terminate_experiment`: computes the end time and the visit
totals and calls `generate_pdf_report`.  That call unconditionally raises
`NameError` — src/src/util.py line 164 uses `get_folder_size`, which is
neither defined nor imported in util.py — so `terminate_experiment` never
returns normally: its trace is the attempted report call, and every caller
below models the escaping `NameError` in its own control flow (statements
after the call do not run; an enclosing `except Exception` catches it; an
enclosing `finally` still runs). -/
def terminate_experiment : List Event := [Event.reportAttempt]

/-- `Experiment.cleanup`: closes the Arduino board, the cameras, and — if not
already closed — the CSV log file, in that order. -/
def cleanup (s : ExpState) : ExpState × List Event :=
  ({ s with csvClosed := true },
   [Event.closeArduino, Event.closeCamerasEvt] ++
     (if s.csvClosed then [] else [Event.closeCsv]))

/-- `Experiment.handle_capture_signal` for one sample index, with the default
handshake delay of one second.  In SetOnce mode an unknown exposure is
auto-detected and stored; then frames are grabbed; a nonempty result is saved
and logged (incrementing the visit count), an empty result only logs an
error; finally the capture-complete handshake runs unconditionally.
`sample_exposures` is a populated list whenever `execute_run` calls this in
SetOnce mode (it materializes the table first); the `getD` defaults are never
reached from `execute_run`. -/
def setOncePhase (s : ExpState) (idx : Nat) (env : CaptureEnv) :
    ExpState × List Event :=
  if s.exposureMode = "SetOnce" then
    match (s.sampleExposures.getD []).getD idx none with
    | none =>
      let tbl2 := (s.sampleExposures.getD []).set idx
        (some (PyNum.int env.detectedExposure))
      ({ s with sampleExposures := some tbl2 },
       [Event.autoExpose idx env.detectedExposure])
    | some _ => (s, [Event.applyStoredExposure idx])
  else (s, [])

def grabPhase (s1 : ExpState) (idx : Nat) (env : CaptureEnv) :
    ExpState × List Event :=
  if env.frames.isEmpty then (s1, [Event.errorNoFrames idx])
  else
    let visit := s1.visitCounts.getD idx 0
    ({ s1 with visitCounts := s1.visitCounts.set idx (visit + 1) },
     env.frames.enum.map (fun p => Event.saveImage idx visit p.1) ++
       env.frames.enum.map (fun p => Event.csvRow s1.runCount idx p.1))

def handle_capture_signal (s : ExpState) (idx : Nat) (env : CaptureEnv) :
    ExpState × List Event :=
  let so := setOncePhase s idx env
  let grab := grabPhase so.1 idx env
  ({ grab.1 with diCaptureComplete := false },
   so.2 ++ grab.2 ++
     [Event.setCaptureComplete true, Event.sleepFor 1000,
      Event.setCaptureComplete false])

/-- Environment of one iteration of the poll loop in `execute_run`:
the result of `check_rising_edge(DO_CAPTURE_pin)`, the level of
`DO_RUN_COMPLETE`, whether the q key was pressed, and the capture
environment used if a capture is handled this iteration. -/
structure PollInput where
  captureEdge : Bool
  runComplete : Bool
  quitKey : Bool
  capture : CaptureEnv
  deriving DecidableEq

/-- How the poll loop of `execute_run` ended. -/
inductive RunOutcome where
  /-- `DO_RUN_COMPLETE` read HIGH: normal termination of the run -/
  | completed
  /-- the q key raised `KeyboardInterrupt` out of `execute_run` -/
  | interrupted
  /-- the supplied script ended; the real loop would keep polling -/
  | exhausted
  deriving DecidableEq

/-- Result of the poll loop / of `execute_run`. -/
structure RunRes where
  state : ExpState
  sampleIndex : Nat
  trace : List Event
  outcome : RunOutcome
  deriving DecidableEq

/-- The `while True` poll loop of `execute_run`, driven by a finite script.
Per iteration: a rising `DO_CAPTURE` edge with `sample_index >= num_samples`
logs a warning and `continue`s (skipping the rest of the iteration); an
in-range edge handles the capture and increments `sample_index`; then
`DO_RUN_COMPLETE` HIGH breaks the loop; then the q key raises; otherwise the
iteration ends with `time.sleep(0.01)`. -/
def runLoop (s : ExpState) (idx : Nat) : List PollInput → RunRes
  | [] => ⟨s, idx, [], RunOutcome.exhausted⟩
  | inp :: rest =>
    if inp.captureEdge ∧ s.numSamples ≤ idx then
      let r := runLoop s idx rest
      ⟨r.state, r.sampleIndex, Event.warnExtraSignal :: r.trace, r.outcome⟩
    else
      let step :=
        if inp.captureEdge then
          let hc := handle_capture_signal s idx inp.capture
          (hc.1, idx + 1, hc.2)
        else (s, idx, ([] : List Event))
      let s1 := step.1
      let idx1 := step.2.1
      let tr1 := step.2.2
      if inp.runComplete then ⟨s1, idx1, tr1, RunOutcome.completed⟩
      else if inp.quitKey then ⟨s1, idx1, tr1, RunOutcome.interrupted⟩
      else
        let r := runLoop s1 idx1 rest
        ⟨r.state, r.sampleIndex, tr1 ++ Event.sleepFor 10 :: r.trace, r.outcome⟩

/-- The state updates at the top of `execute_run`: `DI_RUN` raised,
`run_start_time` recorded, and — only under `constant_interval` —
`next_run_start_time` scheduled as `run_start_time + interval_minutes * 60`
(seconds; times here are in ms). -/
def runInitState (s : ExpState) (t : Int) : ExpState :=
  let next0 := if s.intervalMode = "constant_interval"
               then some (t + s.intervalMinutes * 60 * 1000)
               else s.nextRunStartTime
  { s with
    diRun := true
    runStartTime := some t
    nextRunStartTime := next0 }

/-- `new_exposure_table = (exposure_mode == SetOnce and sample_exposures is
None)` at the start of the run. -/
def newTableFlag (s0 : ExpState) : Bool :=
  decide (s0.exposureMode = "SetOnce") && s0.sampleExposures.isNone

/-- `sample_exposures = [None] * num_samples` when the flag is set. -/
def materializeTable (s0 : ExpState) : ExpState :=
  if newTableFlag s0 then
    { s0 with sampleExposures := some (List.replicate s0.numSamples none) }
  else s0

/-- `Experiment.execute_run`, entered at machine time `t` (ms): raises
`DI_RUN`, records the run start time, under `constant_interval` schedules the
next run start now, materializes a fresh exposure table in SetOnce mode when
`sample_exposures` is `None` (remembering that in `new_exposure_table`), runs
the poll loop, and on normal completion saves the table if it was fresh and
lowers `DI_RUN`.  On an interrupt the exception propagates: no save, no
`DI_RUN` reset. -/
def execute_run (s : ExpState) (t : Int) (script : List PollInput) : RunRes :=
  let s1 := materializeTable (runInitState s t)
  let r := runLoop s1 0 script
  match r.outcome with
  | RunOutcome.completed =>
    let saveTr :=
      if r.state.exposureMode = "SetOnce" ∧ newTableFlag (runInitState s t) = true
      then [Event.saveTable] else []
    ⟨{ r.state with diRun := false }, r.sampleIndex,
      Event.setRun true :: (r.trace ++ saveTr ++ [Event.setRun false]),
      RunOutcome.completed⟩
  | o => ⟨r.state, r.sampleIndex, Event.setRun true :: r.trace, o⟩

/-- Environment of one iteration of the break wait loop: the value
`time.time()` returns, and whether a `KeyboardInterrupt` (Ctrl+C) is
delivered during the `time.sleep(delay)` of this iteration. -/
structure BreakTick where
  now : Int
  interrupt : Bool
  deriving DecidableEq

/-- How `enter_break` ended. -/
inductive BreakOutcome where
  /-- returned normally (either the wait ended, or no break time was left) -/
  | normal
  /-- `KeyboardInterrupt` during the sleep: the handler called
  `terminate_experiment`, whose `NameError` aborted the handler before its
  `cleanup()` and `raise` statements, so a `NameError` (not the interrupt)
  propagates out of `enter_break`; the `finally` only prints -/
  | interrupted
  /-- `TypeError` from `None - time.time()` propagated out -/
  | typeError
  /-- the supplied script ended; the real loop would keep waiting -/
  | exhausted
  deriving DecidableEq

/-- Result of `enter_break`. -/
structure BreakRes where
  state : ExpState
  trace : List Event
  outcome : BreakOutcome
  deriving DecidableEq

/-- The camera-reinit condition of one break iteration: cameras were turned
off, not reinitialized yet, and the remaining time is at or below the 30 s
threshold. -/
def reinitNow (s : ExpState) (next : Int) (reinitDone : Bool)
    (tick : BreakTick) : Bool :=
  s.turnOffCameras && !reinitDone && decide (next - tick.now ≤ 30000)

/-- The wait loop of `enter_break` (default `delay=1` s, default
`reinit_threshold=30` s): each iteration recomputes the remaining time, exits
when it is not positive, reinitializes the cameras at most once when they
were turned off and the remaining time drops to the threshold, then sleeps.
A `KeyboardInterrupt` during the sleep enters the handler, which calls
`terminate_experiment`; that call raises `NameError` (see
`terminate_experiment`), so the handler's subsequent `cleanup()` and `raise`
are skipped — the state is unchanged, nothing is closed here — and the
`NameError` propagates out of `enter_break`. -/
def breakLoop (s : ExpState) (next : Int) (reinitDone : Bool) :
    List BreakTick → BreakRes
  | [] => ⟨s, [], BreakOutcome.exhausted⟩
  | tick :: rest =>
    let remaining := next - tick.now
    if remaining ≤ 0 then ⟨s, [], BreakOutcome.normal⟩
    else
      let doReinit := reinitNow s next reinitDone tick
      let evR := if doReinit then [Event.reinitCamerasEvt] else []
      if tick.interrupt then
        ⟨s, evR ++ [Event.sleepFor 1000] ++ terminate_experiment,
          BreakOutcome.interrupted⟩
      else
        let r := breakLoop s next (reinitDone || doReinit) rest
        ⟨r.state, evR ++ Event.sleepFor 1000 :: r.trace, r.outcome⟩

/-- `Experiment.enter_break`: optionally closes the cameras, under
`constant_break` schedules the next run start from the current time `tA`,
computes the remaining time against a second reading `tB`, returns at once
with a warning when none is left, and otherwise waits in `breakLoop`.
When `next_run_start_time` is still `None`, the subtraction
`self.next_run_start_time - time.time()` raises `TypeError`, which is not
caught here.  `scheduledNext` is the value of `next_run_start_time` right
after the `constant_break` recomputation step. -/
def scheduledNext (s : ExpState) (tA : Int) : Option Int :=
  if s.intervalMode = "constant_break"
  then some (tA + s.intervalMinutes * 60 * 1000)
  else s.nextRunStartTime

/-- See the comment above `scheduledNext`; this is the body of
`Experiment.enter_break` itself. -/
def enter_break (s : ExpState) (tA tB : Int) (ticks : List BreakTick) :
    BreakRes :=
  let camTr := if s.turnOffCameras then [Event.closeCamerasEvt] else []
  let s0 := { s with nextRunStartTime := scheduledNext s tA }
  match s0.nextRunStartTime with
  | none => ⟨s0, camTr, BreakOutcome.typeError⟩
  | some next =>
    if next - tB ≤ 0 then
      ⟨s0, camTr ++ [Event.warnNoBreakTime], BreakOutcome.normal⟩
    else
      let r := breakLoop s0 next false ticks
      ⟨r.state, camTr ++ r.trace, r.outcome⟩

/-- How the whole of `Experiment.run` (after the start prompt) ended.  On
every path that reaches `terminate_experiment` the attempted report raises
`NameError` (undefined `get_folder_size`, util.py 164); the `finally` block
then runs `cleanup` exactly once and the `NameError` escapes `run`. -/
inductive ExpOutcome where
  /-- the configured number of runs finished; the report was attempted from
  the end of the `try` body and — its `NameError` being caught by
  `except Exception` — once more from that handler, both attempts raising;
  `finally` ran `cleanup` once -/
  | finishedAll
  /-- `KeyboardInterrupt` during a run (q key): `except KeyboardInterrupt`
  attempted the report, whose `NameError` escaped the handler (a sibling
  `except` does not catch it); `finally` ran `cleanup` once -/
  | runInterrupt
  /-- `KeyboardInterrupt` during a break: `enter_break`'s handler attempted
  the report, whose `NameError` skipped that handler's `cleanup()` and
  `raise`; `run`'s `except Exception` caught the `NameError` and attempted
  the report once more (raising again); `finally` ran `cleanup` exactly
  once -/
  | breakInterrupt
  /-- an exception (such as the `TypeError` of an unset schedule) escaped a
  break; `except Exception` attempted the report (raising `NameError`);
  `finally` ran `cleanup` once -/
  | breakError
  /-- the supplied script ended before the experiment did -/
  | scriptOver
  deriving DecidableEq

/-- The script for one cycle of the main loop of `Experiment.run`: the run
start time and poll script for `execute_run`, then the time readings and
ticks for `enter_break`. -/
structure CycleScript where
  tRun : Int
  runScript : List PollInput
  tA : Int
  tB : Int
  breakTicks : List BreakTick
  deriving DecidableEq

/-- The loop condition of `Experiment.run` has become false: a finite run
budget is configured and exhausted. -/
def budgetDone (s : ExpState) : Prop :=
  s.totalRuns ≠ -1 ∧ s.totalRuns ≤ (s.runCount : Int)

instance (s : ExpState) : Decidable (budgetDone s) := by
  unfold budgetDone
  exact inferInstance

/-- `self.run_count += 1` after a completed run. -/
def bumpRun (s : ExpState) : ExpState := { s with runCount := s.runCount + 1 }

/-- The main loop of `Experiment.run` with its exception handling: each
cycle checks the loop condition, executes a run, increments `run_count`,
breaks out when the run budget is exhausted, and otherwise enters the break.
When the loop ends normally, the `try` body calls `terminate_experiment`,
whose `NameError` is caught by `except Exception`, whose own
`terminate_experiment` call raises again: two report attempts.  A
`KeyboardInterrupt` raised out of `execute_run` is caught by
`except KeyboardInterrupt`, whose `terminate_experiment` call raises
`NameError` out of the handler: one report attempt.  A `NameError` escaping
`enter_break`'s interrupt handler (which already attempted the report once)
or a `TypeError` escaping `enter_break` is caught by `except Exception`:
one more report attempt.  On every such path the `finally` block runs
`cleanup` exactly once, at the very end, and the final `NameError` escapes
`run`. -/
def runCycles (s : ExpState) : List CycleScript → ExpState × List Event × ExpOutcome
  | [] => (s, [], ExpOutcome.scriptOver)
  | c :: rest =>
    if budgetDone s then
      let cl := cleanup s
      (cl.1, terminate_experiment ++ terminate_experiment ++ cl.2,
        ExpOutcome.finishedAll)
    else
      let r := execute_run s c.tRun c.runScript
      match r.outcome with
      | RunOutcome.interrupted =>
        let cl := cleanup r.state
        (cl.1, r.trace ++ terminate_experiment ++ cl.2, ExpOutcome.runInterrupt)
      | RunOutcome.exhausted => (r.state, r.trace, ExpOutcome.scriptOver)
      | RunOutcome.completed =>
        let s1 := bumpRun r.state
        if budgetDone s1 then
          let cl := cleanup s1
          (cl.1, r.trace ++ terminate_experiment ++ terminate_experiment ++
            cl.2, ExpOutcome.finishedAll)
        else
          let b := enter_break s1 c.tA c.tB c.breakTicks
          match b.outcome with
          | BreakOutcome.interrupted =>
            let cl := cleanup b.state
            (cl.1, r.trace ++ b.trace ++ terminate_experiment ++ cl.2,
              ExpOutcome.breakInterrupt)
          | BreakOutcome.typeError =>
            let cl := cleanup b.state
            (cl.1, r.trace ++ b.trace ++ terminate_experiment ++ cl.2,
              ExpOutcome.breakError)
          | BreakOutcome.exhausted =>
            (b.state, r.trace ++ b.trace, ExpOutcome.scriptOver)
          | BreakOutcome.normal =>
            let rr := runCycles b.state rest
            (rr.1, r.trace ++ b.trace ++ rr.2.1, rr.2.2)

/-! ## Configuration validation model (src/src/util.py, `validate_config`)

The configuration dictionary is modelled as a typed structure; a key whose
presence the validator checks with a `dict` lookup or `dict.get` becomes an
`Option` field (the `isinstance` type checks collapse in the typed model).
`interval_calculation_mode` is carried in the structure but — exactly as in
the source, which never reads it — no check below mentions it. -/

structure Config where
  camera_exposure_time : Option Int
  camera_width : Option Int
  camera_height : Option Int
  exposure_mode : Option String
  input_DO_CAPTURE : Option Int
  input_DO_RUN_COMPLETE : Option Int
  output_DI_RUN : Option Int
  output_DI_CAPTURE_COMPLETE : Option Int
  auto_detect_port : Option Bool
  port : Option String
  number_of_samples : Int
  interval_minutes : Option Int
  total_runs : Option Int
  display_images : Option Bool
  interval_calculation_mode : Option String
  deriving DecidableEq

/-- `validate_config`: the checks of src/src/util.py lines 37-144 in source
order; the first failing check raises `ValueError` with its message. -/
def validate_config (c : Config) : Except String Unit :=
  if c.camera_exposure_time.isNone then
    Except.error "Missing required camera setting: exposure_time"
  else if c.camera_width.isNone then
    Except.error "Missing required camera setting: width"
  else if c.camera_height.isNone then
    Except.error "Missing required camera setting: height"
  else if ¬ (c.exposure_mode.getD "Manual" = "Manual" ∨
             c.exposure_mode.getD "Manual" = "SetOnce" ∨
             c.exposure_mode.getD "Manual" = "Continuous") then
    Except.error "Invalid exposure_mode"
  else if c.exposure_mode.getD "Manual" = "Manual" ∧
          c.camera_exposure_time.isNone then
    Except.error "exposure_time must be provided for Manual exposure_mode"
  else if c.input_DO_CAPTURE.isNone then
    Except.error "Missing required Arduino input pin: DO_CAPTURE"
  else if c.input_DO_RUN_COMPLETE.isNone then
    Except.error "Missing required Arduino input pin: DO_RUN_COMPLETE"
  else if c.output_DI_RUN.isNone then
    Except.error "Missing required Arduino output pin: DI_RUN"
  else if c.output_DI_CAPTURE_COMPLETE.isNone then
    Except.error "Missing required Arduino output pin: DI_CAPTURE_COMPLETE"
  else if ¬ c.auto_detect_port.getD false ∧ c.port.isNone then
    Except.error "port must be specified when auto_detect_port is False"
  else if c.number_of_samples ≤ 0 then
    Except.error "number_of_samples must be a positive integer"
  else if c.interval_minutes.getD 30 ≤ 0 then
    Except.error "interval_minutes must be a positive integer"
  else Except.ok ()

/-! ## Event classification helpers and run-loop invariants -/

def isReportCall : Event → Bool
  | Event.reportAttempt => true
  | _ => false

def isCloseArduino : Event → Bool
  | Event.closeArduino => true
  | _ => false

def isCloseCsvEv : Event → Bool
  | Event.closeCsv => true
  | _ => false

/-- Writes to an owned output pin. -/
def isPinWrite : Event → Bool
  | Event.setRun _ => true
  | Event.setCaptureComplete _ => true
  | _ => false

/-- `true` unless the event is a sleep with negative duration. -/
def sleepOk : Event → Bool
  | Event.sleepFor q => decide (0 ≤ q)
  | _ => true

/-- Events that the poll loop of `execute_run` may emit: handshake pin pulses,
positive sleeps, warnings, exposure actions, image saves, capture rows whose
sample index is below `num`, and grab-failure errors.  No table save, no
report, no resource closing, no `DI_RUN` write. -/
def runEvOk (num : Nat) : Event → Bool
  | Event.setCaptureComplete _ => true
  | Event.sleepFor q => decide (0 < q)
  | Event.warnExtraSignal => true
  | Event.autoExpose _ _ => true
  | Event.applyStoredExposure _ => true
  | Event.saveImage _ _ _ => true
  | Event.csvRow _ i _ => decide (i < num)
  | Event.errorNoFrames _ => true
  | _ => false

/-- The state `s` with only the fields `handle_capture_signal` and the poll
loop may change replaced. -/
def frameOf (s : ExpState) (e : Option (List (Option PyNum)))
    (v : List Nat) (d : Bool) : ExpState :=
  { s with sampleExposures := e, visitCounts := v, diCaptureComplete := d }

theorem setOncePhase_frame (s : ExpState) (idx : Nat) (env : CaptureEnv) :
    ∃ e, (setOncePhase s idx env).1 = { s with sampleExposures := e } := by
  unfold setOncePhase
  split
  · split
    · exact ⟨_, rfl⟩
    · exact ⟨s.sampleExposures, rfl⟩
  · exact ⟨s.sampleExposures, rfl⟩

theorem grabPhase_frame (s1 : ExpState) (idx : Nat) (env : CaptureEnv) :
    ∃ v, (grabPhase s1 idx env).1 = { s1 with visitCounts := v } := by
  unfold grabPhase
  split
  · exact ⟨s1.visitCounts, rfl⟩
  · exact ⟨_, rfl⟩

theorem handle_capture_signal_frame (s : ExpState) (idx : Nat)
    (env : CaptureEnv) :
    ∃ e v, (handle_capture_signal s idx env).1 = frameOf s e v false := by
  obtain ⟨e, he⟩ := setOncePhase_frame s idx env
  obtain ⟨v, hv⟩ := grabPhase_frame (setOncePhase s idx env).1 idx env
  refine ⟨e, v, ?_⟩
  unfold handle_capture_signal frameOf
  dsimp only
  rw [hv, he]

theorem setOncePhase_trace_ok (s : ExpState) (idx : Nat) (env : CaptureEnv) :
    (setOncePhase s idx env).2.all (runEvOk s.numSamples) = true := by
  unfold setOncePhase
  split
  · split <;> simp [runEvOk]
  · simp

theorem grabPhase_trace_ok (s1 : ExpState) (idx : Nat) (env : CaptureEnv)
    (hidx : idx < s1.numSamples) :
    (grabPhase s1 idx env).2.all (runEvOk s1.numSamples) = true := by
  unfold grabPhase
  split
  · simp [runEvOk]
  · simp only [List.all_append, Bool.and_eq_true, List.all_eq_true,
      List.mem_map]
    constructor
    · rintro x ⟨p, _, rfl⟩
      simp [runEvOk]
    · rintro x ⟨p, _, rfl⟩
      simp [runEvOk, hidx]

theorem handle_capture_signal_trace_ok (s : ExpState) (idx : Nat)
    (env : CaptureEnv) (hidx : idx < s.numSamples) :
    (handle_capture_signal s idx env).2.all (runEvOk s.numSamples) = true := by
  obtain ⟨e, he⟩ := setOncePhase_frame s idx env
  have h1 := setOncePhase_trace_ok s idx env
  have hnum : (setOncePhase s idx env).1.numSamples = s.numSamples := by
    rw [he]
  have h2 := grabPhase_trace_ok (setOncePhase s idx env).1 idx env
    (by rw [hnum]; exact hidx)
  rw [hnum] at h2
  unfold handle_capture_signal
  dsimp only
  simp [List.all_append, h1, h2, runEvOk]

def stepOf (s : ExpState) (idx : Nat) (inp : PollInput) :
    ExpState × Nat × List Event :=
  if inp.captureEdge then
    ((handle_capture_signal s idx inp.capture).1, idx + 1,
      (handle_capture_signal s idx inp.capture).2)
  else (s, idx, [])

theorem runLoop_nil (s : ExpState) (idx : Nat) :
    runLoop s idx [] = ⟨s, idx, [], RunOutcome.exhausted⟩ := rfl

theorem runLoop_excess (s : ExpState) (idx : Nat) (inp : PollInput)
    (rest : List PollInput) (h1 : inp.captureEdge = true)
    (h2 : s.numSamples ≤ idx) :
    runLoop s idx (inp :: rest) =
      ⟨(runLoop s idx rest).state, (runLoop s idx rest).sampleIndex,
        Event.warnExtraSignal :: (runLoop s idx rest).trace,
        (runLoop s idx rest).outcome⟩ := by
  conv_lhs => unfold runLoop
  rw [if_pos ⟨h1, h2⟩]

theorem runLoop_complete (s : ExpState) (idx : Nat) (inp : PollInput)
    (rest : List PollInput) (h1 : ¬(inp.captureEdge = true ∧ s.numSamples ≤ idx))
    (h2 : inp.runComplete = true) :
    runLoop s idx (inp :: rest) =
      ⟨(stepOf s idx inp).1, (stepOf s idx inp).2.1, (stepOf s idx inp).2.2,
        RunOutcome.completed⟩ := by
  conv_lhs => unfold runLoop
  rw [if_neg h1]
  simp only [h2, if_true]
  rfl

theorem runLoop_quit (s : ExpState) (idx : Nat) (inp : PollInput)
    (rest : List PollInput) (h1 : ¬(inp.captureEdge = true ∧ s.numSamples ≤ idx))
    (h2 : inp.runComplete = false) (h3 : inp.quitKey = true) :
    runLoop s idx (inp :: rest) =
      ⟨(stepOf s idx inp).1, (stepOf s idx inp).2.1, (stepOf s idx inp).2.2,
        RunOutcome.interrupted⟩ := by
  conv_lhs => unfold runLoop
  rw [if_neg h1]
  simp only [h2, h3, Bool.false_eq_true, if_false, if_true]
  rfl

theorem runLoop_next (s : ExpState) (idx : Nat) (inp : PollInput)
    (rest : List PollInput) (h1 : ¬(inp.captureEdge = true ∧ s.numSamples ≤ idx))
    (h2 : inp.runComplete = false) (h3 : inp.quitKey = false) :
    runLoop s idx (inp :: rest) =
      ⟨(runLoop (stepOf s idx inp).1 (stepOf s idx inp).2.1 rest).state,
        (runLoop (stepOf s idx inp).1 (stepOf s idx inp).2.1 rest).sampleIndex,
        (stepOf s idx inp).2.2 ++
          Event.sleepFor 10 ::
            (runLoop (stepOf s idx inp).1 (stepOf s idx inp).2.1 rest).trace,
        (runLoop (stepOf s idx inp).1 (stepOf s idx inp).2.1 rest).outcome⟩ := by
  conv_lhs => unfold runLoop
  rw [if_neg h1]
  simp only [h2, h3, Bool.false_eq_true, if_false]
  rfl

theorem frameOf_comp (s : ExpState) (e v d e2 v2 d2) :
    frameOf (frameOf s e v d) e2 v2 d2 = frameOf s e2 v2 d2 := rfl

theorem stepOf_frame (s : ExpState) (idx : Nat) (inp : PollInput) :
    ∃ e v d, (stepOf s idx inp).1 = frameOf s e v d ∧
      (d = s.diCaptureComplete ∨ d = false) := by
  unfold stepOf
  split
  · obtain ⟨e, v, hh⟩ := handle_capture_signal_frame s idx inp.capture
    exact ⟨e, v, false, hh, Or.inr rfl⟩
  · exact ⟨s.sampleExposures, s.visitCounts, s.diCaptureComplete, rfl,
      Or.inl rfl⟩

theorem stepOf_numSamples (s : ExpState) (idx : Nat) (inp : PollInput) :
    (stepOf s idx inp).1.numSamples = s.numSamples := by
  obtain ⟨e, v, d, h, _⟩ := stepOf_frame s idx inp
  rw [h]; rfl

theorem not_excess_lt (s : ExpState) (idx : Nat) (inp : PollInput)
    (hc : inp.captureEdge = true)
    (hex : ¬(inp.captureEdge = true ∧ s.numSamples ≤ idx)) :
    idx < s.numSamples := by
  by_contra hcon
  exact hex ⟨hc, Nat.le_of_not_lt hcon⟩

theorem stepOf_idx_le (s : ExpState) (idx : Nat) (inp : PollInput)
    (h : idx ≤ s.numSamples)
    (hex : ¬(inp.captureEdge = true ∧ s.numSamples ≤ idx)) :
    (stepOf s idx inp).2.1 ≤ s.numSamples := by
  unfold stepOf
  split
  · rename_i hc
    have := not_excess_lt s idx inp hc hex
    show idx + 1 ≤ s.numSamples
    omega
  · exact h

theorem stepOf_trace_ok (s : ExpState) (idx : Nat) (inp : PollInput)
    (hex : ¬(inp.captureEdge = true ∧ s.numSamples ≤ idx)) :
    (stepOf s idx inp).2.2.all (runEvOk s.numSamples) = true := by
  unfold stepOf
  split
  · rename_i hc
    exact handle_capture_signal_trace_ok s idx inp.capture
      (not_excess_lt s idx inp hc hex)
  · simp

/-- Combined invariant of the poll loop: the state changes only in the
exposure table, visit counts and capture-complete level (which can only be
lowered); the sample index never passes `num_samples`; every emitted event is
a `runEvOk` event; an interrupt can only come from a q-key press in the
script. -/
theorem runLoop_inv (script : List PollInput) :
    ∀ (s : ExpState) (idx : Nat),
      (∃ e v d, (runLoop s idx script).state = frameOf s e v d ∧
          (d = s.diCaptureComplete ∨ d = false)) ∧
      (idx ≤ s.numSamples →
        (runLoop s idx script).sampleIndex ≤ s.numSamples) ∧
      (runLoop s idx script).trace.all (runEvOk s.numSamples) = true ∧
      ((runLoop s idx script).outcome = RunOutcome.interrupted →
        script.any (fun i => i.quitKey) = true) := by
  induction script with
  | nil =>
    intro s idx
    refine ⟨⟨s.sampleExposures, s.visitCounts, s.diCaptureComplete, rfl,
      Or.inl rfl⟩, ?_, ?_, ?_⟩
    · intro h
      simpa [runLoop_nil] using h
    · simp [runLoop_nil]
    · simp [runLoop_nil]
  | cons inp rest ih =>
    intro s idx
    by_cases hex : inp.captureEdge = true ∧ s.numSamples ≤ idx
    · rw [runLoop_excess s idx inp rest hex.1 hex.2]
      obtain ⟨hframe, hbound, htrace, hint⟩ := ih s idx
      refine ⟨hframe, hbound, ?_, ?_⟩
      · simpa [runEvOk] using htrace
      · intro h
        simp only [List.any_cons, Bool.or_eq_true]
        exact Or.inr (hint h)
    · by_cases hrc : inp.runComplete = true
      · rw [runLoop_complete s idx inp rest hex hrc]
        refine ⟨stepOf_frame s idx inp, ?_, ?_, ?_⟩
        · intro hle
          exact stepOf_idx_le s idx inp hle hex
        · exact stepOf_trace_ok s idx inp hex
        · intro h
          exact absurd h (by simp)
      · have hrc' : inp.runComplete = false := by
          revert hrc; cases inp.runComplete <;> simp
        by_cases hq : inp.quitKey = true
        · rw [runLoop_quit s idx inp rest hex hrc' hq]
          refine ⟨stepOf_frame s idx inp, ?_, ?_, ?_⟩
          · intro hle
            exact stepOf_idx_le s idx inp hle hex
          · exact stepOf_trace_ok s idx inp hex
          · intro _
            simp [hq]
        · have hq' : inp.quitKey = false := by
            revert hq; cases inp.quitKey <;> simp
          rw [runLoop_next s idx inp rest hex hrc' hq']
          obtain ⟨e, v, d, hstep, hd⟩ := stepOf_frame s idx inp
          obtain ⟨hframe2, hbound2, htrace2, hint2⟩ :=
            ih (stepOf s idx inp).1 (stepOf s idx inp).2.1
          have hnum := stepOf_numSamples s idx inp
          refine ⟨?_, ?_, ?_, ?_⟩
          · obtain ⟨e2, v2, d2, hst2, hd2⟩ := hframe2
            refine ⟨e2, v2, d2, ?_, ?_⟩
            · rw [hst2, hstep, frameOf_comp]
            · rcases hd2 with hd2 | hd2
              · rw [hstep] at hd2
                rcases hd with hd | hd
                · exact Or.inl (by rw [hd2]; exact hd)
                · exact Or.inr (by rw [hd2]; exact hd)
              · exact Or.inr hd2
          · intro hle
            have h1 := stepOf_idx_le s idx inp hle hex
            have := hbound2 (by rw [hnum]; exact h1)
            rw [hnum] at this
            exact this
          · rw [hnum] at htrace2
            simp only [List.all_append, List.all_cons, Bool.and_eq_true]
            exact ⟨stepOf_trace_ok s idx inp hex, by simp [runEvOk], htrace2⟩
          · intro h
            simp only [List.any_cons, Bool.or_eq_true]
            exact Or.inr (hint2 h)

theorem execute_run_eq_completed (s : ExpState) (t : Int)
    (script : List PollInput)
    (h : (runLoop (materializeTable (runInitState s t)) 0 script).outcome =
      RunOutcome.completed) :
    execute_run s t script =
      ⟨{ (runLoop (materializeTable (runInitState s t)) 0 script).state with
          diRun := false },
        (runLoop (materializeTable (runInitState s t)) 0 script).sampleIndex,
        Event.setRun true ::
          ((runLoop (materializeTable (runInitState s t)) 0 script).trace ++
            (if (runLoop (materializeTable (runInitState s t)) 0
                  script).state.exposureMode = "SetOnce" ∧
                newTableFlag (runInitState s t) = true
             then [Event.saveTable] else []) ++ [Event.setRun false]),
        RunOutcome.completed⟩ := by
  unfold execute_run
  dsimp only
  rw [h]

theorem execute_run_eq_other (s : ExpState) (t : Int) (script : List PollInput)
    (h : (runLoop (materializeTable (runInitState s t)) 0 script).outcome ≠
      RunOutcome.completed) :
    execute_run s t script =
      ⟨(runLoop (materializeTable (runInitState s t)) 0 script).state,
        (runLoop (materializeTable (runInitState s t)) 0 script).sampleIndex,
        Event.setRun true ::
          (runLoop (materializeTable (runInitState s t)) 0 script).trace,
        (runLoop (materializeTable (runInitState s t)) 0 script).outcome⟩ := by
  cases ho : (runLoop (materializeTable (runInitState s t)) 0 script).outcome with
  | completed => exact absurd ho h
  | interrupted =>
    unfold execute_run
    dsimp only
    rw [ho]
  | exhausted =>
    unfold execute_run
    dsimp only
    rw [ho]

theorem materializeTable_proj (s0 : ExpState) :
    (materializeTable s0).exposureMode = s0.exposureMode ∧
    (materializeTable s0).numSamples = s0.numSamples ∧
    (materializeTable s0).nextRunStartTime = s0.nextRunStartTime ∧
    (materializeTable s0).runStartTime = s0.runStartTime ∧
    (materializeTable s0).diCaptureComplete = s0.diCaptureComplete ∧
    (materializeTable s0).csvClosed = s0.csvClosed ∧
    (materializeTable s0).diRun = s0.diRun ∧
    (materializeTable s0).intervalMode = s0.intervalMode ∧
    (materializeTable s0).intervalMinutes = s0.intervalMinutes ∧
    (materializeTable s0).turnOffCameras = s0.turnOffCameras ∧
    (materializeTable s0).totalRuns = s0.totalRuns ∧
    (materializeTable s0).runCount = s0.runCount := by
  unfold materializeTable
  split <;> simp

theorem runLoop_state_proj (script : List PollInput) (s : ExpState) (idx : Nat) :
    (runLoop s idx script).state.exposureMode = s.exposureMode ∧
    (runLoop s idx script).state.numSamples = s.numSamples ∧
    (runLoop s idx script).state.nextRunStartTime = s.nextRunStartTime ∧
    (runLoop s idx script).state.runStartTime = s.runStartTime ∧
    (runLoop s idx script).state.diRun = s.diRun ∧
    (runLoop s idx script).state.csvClosed = s.csvClosed ∧
    (runLoop s idx script).state.intervalMode = s.intervalMode ∧
    (runLoop s idx script).state.intervalMinutes = s.intervalMinutes ∧
    (runLoop s idx script).state.turnOffCameras = s.turnOffCameras ∧
    (runLoop s idx script).state.totalRuns = s.totalRuns ∧
    (runLoop s idx script).state.runCount = s.runCount := by
  obtain ⟨e, v, d, hst, _⟩ := (runLoop_inv script s idx).1
  rw [hst]
  unfold frameOf
  simp

theorem all_runEvOk_no_report (num : Nat) (tr : List Event)
    (h : tr.all (runEvOk num) = true) : tr.countP isReportCall = 0 := by
  rw [List.countP_eq_zero]
  intro e he
  have := List.all_eq_true.mp h e he
  cases e <;> simp_all [runEvOk, isReportCall]

theorem all_runEvOk_no_closeArduino (num : Nat) (tr : List Event)
    (h : tr.all (runEvOk num) = true) : tr.countP isCloseArduino = 0 := by
  rw [List.countP_eq_zero]
  intro e he
  have := List.all_eq_true.mp h e he
  cases e <;> simp_all [runEvOk, isCloseArduino]

theorem all_runEvOk_no_saveTable (num : Nat) (tr : List Event)
    (h : tr.all (runEvOk num) = true) : Event.saveTable ∉ tr := by
  intro hmem
  have := List.all_eq_true.mp h _ hmem
  simp [runEvOk] at this

theorem all_runEvOk_sleepOk (num : Nat) (tr : List Event)
    (h : tr.all (runEvOk num) = true) : tr.all sleepOk = true := by
  rw [List.all_eq_true] at h ⊢
  intro e he
  have := h e he
  cases e <;> simp_all [runEvOk, sleepOk] <;> omega

theorem all_runEvOk_csvRow_lt (num : Nat) (tr : List Event)
    (h : tr.all (runEvOk num) = true) (run i cam : Nat)
    (hmem : Event.csvRow run i cam ∈ tr) : i < num := by
  have := List.all_eq_true.mp h _ hmem
  simpa [runEvOk] using this

theorem breakLoop_nil (s : ExpState) (next : Int) (rd : Bool) :
    breakLoop s next rd [] = ⟨s, [], BreakOutcome.exhausted⟩ := rfl

theorem breakLoop_done (s : ExpState) (next : Int) (rd : Bool)
    (tick : BreakTick) (rest : List BreakTick) (h : next - tick.now ≤ 0) :
    breakLoop s next rd (tick :: rest) = ⟨s, [], BreakOutcome.normal⟩ := by
  conv_lhs => unfold breakLoop
  rw [if_pos h]

theorem breakLoop_interrupt (s : ExpState) (next : Int) (rd : Bool)
    (tick : BreakTick) (rest : List BreakTick) (h1 : ¬(next - tick.now ≤ 0))
    (h2 : tick.interrupt = true) :
    breakLoop s next rd (tick :: rest) =
      ⟨s,
        (if reinitNow s next rd tick then [Event.reinitCamerasEvt] else []) ++
          [Event.sleepFor 1000] ++ terminate_experiment,
        BreakOutcome.interrupted⟩ := by
  conv_lhs => unfold breakLoop
  rw [if_neg h1]
  simp only [h2, if_true]

theorem breakLoop_go (s : ExpState) (next : Int) (rd : Bool)
    (tick : BreakTick) (rest : List BreakTick) (h1 : ¬(next - tick.now ≤ 0))
    (h2 : tick.interrupt = false) :
    breakLoop s next rd (tick :: rest) =
      ⟨(breakLoop s next (rd || reinitNow s next rd tick) rest).state,
        (if reinitNow s next rd tick then [Event.reinitCamerasEvt] else []) ++
          Event.sleepFor 1000 ::
            (breakLoop s next (rd || reinitNow s next rd tick) rest).trace,
        (breakLoop s next (rd || reinitNow s next rd tick) rest).outcome⟩ := by
  conv_lhs => unfold breakLoop
  rw [if_neg h1]
  simp only [h2, Bool.false_eq_true, if_false]

/-- Combined invariant of the break wait loop: no pin is ever written, every
sleep has nonnegative duration, an interrupted exit leaves the state
untouched (the handler's `cleanup()` is dead code behind the raising report
call) with exactly one attempted report as the trace suffix and nothing
closed, and a non-interrupted exit leaves the state untouched and has
produced no report attempt and no close. -/
theorem breakLoop_inv (ticks : List BreakTick) :
    ∀ (s : ExpState) (next : Int) (rd : Bool),
      ((breakLoop s next rd ticks).trace.all (fun e => !isPinWrite e) = true) ∧
      ((breakLoop s next rd ticks).trace.all sleepOk = true) ∧
      ((breakLoop s next rd ticks).outcome = BreakOutcome.interrupted →
        (breakLoop s next rd ticks).state = s ∧
        (breakLoop s next rd ticks).trace.countP isReportCall = 1 ∧
        (breakLoop s next rd ticks).trace.countP isCloseArduino = 0 ∧
        (breakLoop s next rd ticks).trace.countP isCloseCsvEv = 0 ∧
        ∃ pre, (breakLoop s next rd ticks).trace =
          pre ++ [Event.reportAttempt]) ∧
      ((breakLoop s next rd ticks).outcome ≠ BreakOutcome.interrupted →
        (breakLoop s next rd ticks).state = s ∧
        (breakLoop s next rd ticks).trace.countP isReportCall = 0 ∧
        (breakLoop s next rd ticks).trace.countP isCloseArduino = 0 ∧
        (breakLoop s next rd ticks).trace.countP isCloseCsvEv = 0) := by
  induction ticks with
  | nil =>
    intro s next rd
    refine ⟨?_, ?_, ?_, ?_⟩ <;> simp [breakLoop_nil]
  | cons tick rest ih =>
    intro s next rd
    by_cases h1 : next - tick.now ≤ 0
    · rw [breakLoop_done s next rd tick rest h1]
      refine ⟨?_, ?_, ?_, ?_⟩ <;> simp
    · by_cases h2 : tick.interrupt = true
      · rw [breakLoop_interrupt s next rd tick rest h1 h2]
        refine ⟨?_, ?_, ?_, ?_⟩
        · unfold terminate_experiment
          split <;> simp [isPinWrite]
        · unfold terminate_experiment
          split <;> simp [sleepOk]
        · intro _
          refine ⟨rfl, ?_, ?_, ?_, ?_⟩
          · unfold terminate_experiment
            split <;>
              simp [isReportCall, List.countP_cons, List.countP_append]
          · unfold terminate_experiment
            split <;>
              simp [isCloseArduino, List.countP_cons, List.countP_append]
          · unfold terminate_experiment
            split <;>
              simp [isCloseCsvEv, List.countP_cons, List.countP_append]
          · refine ⟨(if reinitNow s next rd tick then [Event.reinitCamerasEvt]
              else []) ++ [Event.sleepFor 1000], ?_⟩
            unfold terminate_experiment
            simp
        · intro h
          exact absurd rfl h
      · have h2' : tick.interrupt = false := by
          revert h2; cases tick.interrupt <;> simp
        rw [breakLoop_go s next rd tick rest h1 h2']
        obtain ⟨ha, hb, hc, hd⟩ := ih s next (rd || reinitNow s next rd tick)
        refine ⟨?_, ?_, ?_, ?_⟩
        · simp only [List.all_append, List.all_cons, Bool.and_eq_true]
          refine ⟨?_, by simp [isPinWrite], ha⟩
          split <;> simp [isPinWrite]
        · simp only [List.all_append, List.all_cons, Bool.and_eq_true]
          refine ⟨?_, by simp [sleepOk], hb⟩
          split <;> simp [sleepOk]
        · intro h
          obtain ⟨hst, hr, hcl, hcsv, pre, hpre⟩ := hc h
          refine ⟨hst, ?_, ?_, ?_, ?_⟩
          · simp only [List.countP_append, List.countP_cons, hr]
            split <;> simp [isReportCall]
          · simp only [List.countP_append, List.countP_cons, hcl]
            split <;> simp [isCloseArduino]
          · simp only [List.countP_append, List.countP_cons, hcsv]
            split <;> simp [isCloseCsvEv]
          · refine ⟨(if reinitNow s next rd tick then [Event.reinitCamerasEvt]
              else []) ++ Event.sleepFor 1000 :: pre, ?_⟩
            rw [hpre]
            simp
        · intro h
          obtain ⟨hst, hr, hcl, hcsv⟩ := hd h
          refine ⟨hst, ?_, ?_, ?_⟩
          · simp only [List.countP_append, List.countP_cons, hr]
            split <;> simp [isReportCall]
          · simp only [List.countP_append, List.countP_cons, hcl]
            split <;> simp [isCloseArduino]
          · simp only [List.countP_append, List.countP_cons, hcsv]
            split <;> simp [isCloseCsvEv]

theorem enter_break_typeError_eq (s : ExpState) (tA tB : Int)
    (ticks : List BreakTick) (h : scheduledNext s tA = none) :
    enter_break s tA tB ticks =
      ⟨{ s with nextRunStartTime := none },
        (if s.turnOffCameras then [Event.closeCamerasEvt] else []),
        BreakOutcome.typeError⟩ := by
  unfold enter_break
  dsimp only
  rw [h]

theorem enter_break_noTime_eq (s : ExpState) (tA tB : Int)
    (ticks : List BreakTick) (n : Int) (h : scheduledNext s tA = some n)
    (h2 : n - tB ≤ 0) :
    enter_break s tA tB ticks =
      ⟨{ s with nextRunStartTime := some n },
        (if s.turnOffCameras then [Event.closeCamerasEvt] else []) ++
          [Event.warnNoBreakTime],
        BreakOutcome.normal⟩ := by
  unfold enter_break
  dsimp only
  rw [h]
  dsimp only
  rw [if_pos h2]

theorem enter_break_wait_eq (s : ExpState) (tA tB : Int)
    (ticks : List BreakTick) (n : Int) (h : scheduledNext s tA = some n)
    (h2 : ¬(n - tB ≤ 0)) :
    enter_break s tA tB ticks =
      ⟨(breakLoop { s with nextRunStartTime := some n } n false ticks).state,
        (if s.turnOffCameras then [Event.closeCamerasEvt] else []) ++
          (breakLoop { s with nextRunStartTime := some n } n false ticks).trace,
        (breakLoop { s with nextRunStartTime := some n } n false
          ticks).outcome⟩ := by
  unfold enter_break
  dsimp only
  rw [h]
  dsimp only
  rw [if_neg h2]

theorem cleanup_counts (s : ExpState) :
    (cleanup s).2.countP isReportCall = 0 ∧
    (cleanup s).2.countP isCloseArduino = 1 := by
  unfold cleanup
  split <;>
    simp [List.countP_cons, List.countP_nil, List.countP_append, isReportCall,
      isCloseArduino]

theorem terminate_counts :
    terminate_experiment.countP isReportCall = 1 ∧
    terminate_experiment.countP isCloseArduino = 0 := by
  unfold terminate_experiment
  simp [List.countP_cons, List.countP_nil, isReportCall, isCloseArduino]

theorem execute_run_counts (s : ExpState) (t : Int) (script : List PollInput) :
    (execute_run s t script).trace.countP isReportCall = 0 ∧
    (execute_run s t script).trace.countP isCloseArduino = 0 := by
  have hall := (runLoop_inv script (materializeTable (runInitState s t)) 0).2.2.1
  have hr := all_runEvOk_no_report _ _ hall
  have hc := all_runEvOk_no_closeArduino _ _ hall
  by_cases h : (runLoop (materializeTable (runInitState s t)) 0 script).outcome
      = RunOutcome.completed
  · rw [execute_run_eq_completed s t script h]
    constructor <;>
      · simp only [List.countP_cons, List.countP_append, hr, hc]
        split <;> simp [isReportCall, isCloseArduino]
  · rw [execute_run_eq_other s t script h]
    constructor <;>
      simp [List.countP_cons, hr, hc, isReportCall, isCloseArduino]

/-- An interrupted break attempts the report exactly once and closes
nothing: the handler's `cleanup()` is never reached. -/
theorem enter_break_interrupted_counts (s : ExpState) (tA tB : Int)
    (ticks : List BreakTick)
    (hout : (enter_break s tA tB ticks).outcome = BreakOutcome.interrupted) :
    (enter_break s tA tB ticks).trace.countP isReportCall = 1 ∧
    (enter_break s tA tB ticks).trace.countP isCloseArduino = 0 ∧
    (enter_break s tA tB ticks).trace.countP isCloseCsvEv = 0 := by
  cases hn : scheduledNext s tA with
  | none =>
    rw [enter_break_typeError_eq s tA tB ticks hn] at hout
    exact absurd hout (by simp)
  | some n =>
    by_cases h2 : n - tB ≤ 0
    · rw [enter_break_noTime_eq s tA tB ticks n hn h2] at hout
      exact absurd hout (by simp)
    · rw [enter_break_wait_eq s tA tB ticks n hn h2] at hout ⊢
      dsimp only at hout ⊢
      obtain ⟨_, hrep, hclo, hcsv, _⟩ :=
        (breakLoop_inv ticks { s with nextRunStartTime := some n } n
          false).2.2.1 hout
      refine ⟨?_, ?_, ?_⟩ <;>
        · simp only [List.countP_append, hrep, hclo, hcsv]
          split <;> simp [isReportCall, isCloseArduino, isCloseCsvEv]

theorem enter_break_other_counts (s : ExpState) (tA tB : Int)
    (ticks : List BreakTick)
    (hout : (enter_break s tA tB ticks).outcome ≠ BreakOutcome.interrupted) :
    (enter_break s tA tB ticks).trace.countP isReportCall = 0 ∧
    (enter_break s tA tB ticks).trace.countP isCloseArduino = 0 := by
  cases hn : scheduledNext s tA with
  | none =>
    rw [enter_break_typeError_eq s tA tB ticks hn]
    constructor <;>
      · dsimp only
        split <;> simp [isReportCall, isCloseArduino]
  | some n =>
    by_cases h2 : n - tB ≤ 0
    · rw [enter_break_noTime_eq s tA tB ticks n hn h2]
      constructor <;>
        · dsimp only
          simp only [List.countP_append, List.countP_cons, List.countP_nil]
          split <;> simp [isReportCall, isCloseArduino]
    · rw [enter_break_wait_eq s tA tB ticks n hn h2] at hout ⊢
      dsimp only at hout ⊢
      obtain ⟨_, hrep, hclo, _⟩ :=
        (breakLoop_inv ticks { s with nextRunStartTime := some n } n
          false).2.2.2 hout
      constructor <;>
        · simp only [List.countP_append, hrep, hclo]
          split <;> simp [isReportCall, isCloseArduino]

theorem runCycles_nil (s : ExpState) :
    runCycles s [] = (s, [], ExpOutcome.scriptOver) := rfl

theorem runCycles_budget (s : ExpState) (c : CycleScript)
    (rest : List CycleScript) (h : budgetDone s) :
    runCycles s (c :: rest) =
      ((cleanup s).1,
        terminate_experiment ++ terminate_experiment ++ (cleanup s).2,
        ExpOutcome.finishedAll) := by
  conv_lhs => unfold runCycles
  rw [if_pos h]

theorem runCycles_runInt (s : ExpState) (c : CycleScript)
    (rest : List CycleScript) (hb : ¬ budgetDone s)
    (hr : (execute_run s c.tRun c.runScript).outcome =
      RunOutcome.interrupted) :
    runCycles s (c :: rest) =
      ((cleanup (execute_run s c.tRun c.runScript).state).1,
        (execute_run s c.tRun c.runScript).trace ++ terminate_experiment ++
          (cleanup (execute_run s c.tRun c.runScript).state).2,
        ExpOutcome.runInterrupt) := by
  conv_lhs => unfold runCycles
  rw [if_neg hb]
  try dsimp only
  rw [hr]

theorem runCycles_runExh (s : ExpState) (c : CycleScript)
    (rest : List CycleScript) (hb : ¬ budgetDone s)
    (hr : (execute_run s c.tRun c.runScript).outcome = RunOutcome.exhausted) :
    runCycles s (c :: rest) =
      ((execute_run s c.tRun c.runScript).state,
        (execute_run s c.tRun c.runScript).trace, ExpOutcome.scriptOver) := by
  conv_lhs => unfold runCycles
  rw [if_neg hb]
  try dsimp only
  rw [hr]

theorem runCycles_finish2 (s : ExpState) (c : CycleScript)
    (rest : List CycleScript) (hb : ¬ budgetDone s)
    (hr : (execute_run s c.tRun c.runScript).outcome = RunOutcome.completed)
    (hb2 : budgetDone (bumpRun (execute_run s c.tRun c.runScript).state)) :
    runCycles s (c :: rest) =
      ((cleanup (bumpRun (execute_run s c.tRun c.runScript).state)).1,
        (execute_run s c.tRun c.runScript).trace ++ terminate_experiment ++
          terminate_experiment ++
          (cleanup (bumpRun (execute_run s c.tRun c.runScript).state)).2,
        ExpOutcome.finishedAll) := by
  conv_lhs => unfold runCycles
  rw [if_neg hb]
  try dsimp only
  rw [hr]
  try dsimp only
  rw [if_pos hb2]

theorem runCycles_breakInt (s : ExpState) (c : CycleScript)
    (rest : List CycleScript) (hb : ¬ budgetDone s)
    (hr : (execute_run s c.tRun c.runScript).outcome = RunOutcome.completed)
    (hb2 : ¬ budgetDone (bumpRun (execute_run s c.tRun c.runScript).state))
    (hbo : (enter_break (bumpRun (execute_run s c.tRun c.runScript).state)
      c.tA c.tB c.breakTicks).outcome = BreakOutcome.interrupted) :
    runCycles s (c :: rest) =
      ((cleanup (enter_break (bumpRun (execute_run s c.tRun
          c.runScript).state) c.tA c.tB c.breakTicks).state).1,
        (execute_run s c.tRun c.runScript).trace ++
          (enter_break (bumpRun (execute_run s c.tRun c.runScript).state)
            c.tA c.tB c.breakTicks).trace ++ terminate_experiment ++
          (cleanup (enter_break (bumpRun (execute_run s c.tRun
            c.runScript).state) c.tA c.tB c.breakTicks).state).2,
        ExpOutcome.breakInterrupt) := by
  conv_lhs => unfold runCycles
  rw [if_neg hb]
  try dsimp only
  rw [hr]
  try dsimp only
  rw [if_neg hb2]
  try dsimp only
  rw [hbo]

theorem runCycles_breakErr (s : ExpState) (c : CycleScript)
    (rest : List CycleScript) (hb : ¬ budgetDone s)
    (hr : (execute_run s c.tRun c.runScript).outcome = RunOutcome.completed)
    (hb2 : ¬ budgetDone (bumpRun (execute_run s c.tRun c.runScript).state))
    (hbo : (enter_break (bumpRun (execute_run s c.tRun c.runScript).state)
      c.tA c.tB c.breakTicks).outcome = BreakOutcome.typeError) :
    runCycles s (c :: rest) =
      ((cleanup (enter_break (bumpRun (execute_run s c.tRun
          c.runScript).state) c.tA c.tB c.breakTicks).state).1,
        (execute_run s c.tRun c.runScript).trace ++
          (enter_break (bumpRun (execute_run s c.tRun c.runScript).state)
            c.tA c.tB c.breakTicks).trace ++ terminate_experiment ++
          (cleanup (enter_break (bumpRun (execute_run s c.tRun
            c.runScript).state) c.tA c.tB c.breakTicks).state).2,
        ExpOutcome.breakError) := by
  conv_lhs => unfold runCycles
  rw [if_neg hb]
  try dsimp only
  rw [hr]
  try dsimp only
  rw [if_neg hb2]
  try dsimp only
  rw [hbo]

theorem runCycles_breakExh (s : ExpState) (c : CycleScript)
    (rest : List CycleScript) (hb : ¬ budgetDone s)
    (hr : (execute_run s c.tRun c.runScript).outcome = RunOutcome.completed)
    (hb2 : ¬ budgetDone (bumpRun (execute_run s c.tRun c.runScript).state))
    (hbo : (enter_break (bumpRun (execute_run s c.tRun c.runScript).state)
      c.tA c.tB c.breakTicks).outcome = BreakOutcome.exhausted) :
    runCycles s (c :: rest) =
      ((enter_break (bumpRun (execute_run s c.tRun c.runScript).state)
          c.tA c.tB c.breakTicks).state,
        (execute_run s c.tRun c.runScript).trace ++
          (enter_break (bumpRun (execute_run s c.tRun c.runScript).state)
            c.tA c.tB c.breakTicks).trace,
        ExpOutcome.scriptOver) := by
  conv_lhs => unfold runCycles
  rw [if_neg hb]
  try dsimp only
  rw [hr]
  try dsimp only
  rw [if_neg hb2]
  try dsimp only
  rw [hbo]

theorem runCycles_next (s : ExpState) (c : CycleScript)
    (rest : List CycleScript) (hb : ¬ budgetDone s)
    (hr : (execute_run s c.tRun c.runScript).outcome = RunOutcome.completed)
    (hb2 : ¬ budgetDone (bumpRun (execute_run s c.tRun c.runScript).state))
    (hbo : (enter_break (bumpRun (execute_run s c.tRun c.runScript).state)
      c.tA c.tB c.breakTicks).outcome = BreakOutcome.normal) :
    runCycles s (c :: rest) =
      ((runCycles (enter_break (bumpRun (execute_run s c.tRun
          c.runScript).state) c.tA c.tB c.breakTicks).state rest).1,
        (execute_run s c.tRun c.runScript).trace ++
          (enter_break (bumpRun (execute_run s c.tRun c.runScript).state)
            c.tA c.tB c.breakTicks).trace ++
          (runCycles (enter_break (bumpRun (execute_run s c.tRun
            c.runScript).state) c.tA c.tB c.breakTicks).state rest).2.1,
        (runCycles (enter_break (bumpRun (execute_run s c.tRun
          c.runScript).state) c.tA c.tB c.breakTicks).state rest).2.2) := by
  conv_lhs => unfold runCycles
  rw [if_neg hb]
  try dsimp only
  rw [hr]
  try dsimp only
  rw [if_neg hb2]
  try dsimp only
  rw [hbo]

/-- The trace ends with the event block of one `cleanup` call:
`arduino.close`, `close_cameras`, and — when the CSV log was still open —
the CSV close. -/
def endsWithCleanup (tr : List Event) : Bool :=
  match tr.reverse with
  | Event.closeCsv :: Event.closeCamerasEvt :: Event.closeArduino :: _ => true
  | Event.closeCamerasEvt :: Event.closeArduino :: _ => true
  | _ => false

theorem endsWithCleanup_append_cleanup (x : List Event) (st : ExpState) :
    endsWithCleanup (x ++ (cleanup st).2) = true := by
  unfold cleanup
  dsimp only
  by_cases h : st.csvClosed
  · rw [if_pos h]
    rw [show ([Event.closeArduino, Event.closeCamerasEvt] ++
        ([] : List Event)) = [Event.closeArduino, Event.closeCamerasEvt]
      from rfl]
    unfold endsWithCleanup
    rw [List.reverse_append]
    rfl
  · rw [if_neg h]
    rw [show ([Event.closeArduino, Event.closeCamerasEvt] ++
        [Event.closeCsv]) = [Event.closeArduino, Event.closeCamerasEvt,
        Event.closeCsv] from rfl]
    unfold endsWithCleanup
    rw [List.reverse_append]
    rfl

theorem endsWithCleanup_append_left (x y : List Event)
    (h : endsWithCleanup y = true) : endsWithCleanup (x ++ y) = true := by
  unfold endsWithCleanup at h ⊢
  rw [List.reverse_append]
  split at h
  · rename_i heq
    rw [heq]
    rfl
  · rename_i heq
    rw [heq]
    rfl
  · simp at h

/-- Shape of the whole-`run` trace on the break-interrupt path: the report
call is attempted exactly twice and never completes (each attempt raises
`NameError` at the undefined `get_folder_size`), the Arduino is closed
exactly once, and the trace ends with the single `finally` `cleanup` block. -/
theorem runCycles_breakInterrupt_shape (cycles : List CycleScript) :
    ∀ s : ExpState,
      (runCycles s cycles).2.2 = ExpOutcome.breakInterrupt →
      (runCycles s cycles).2.1.countP isReportCall = 2 ∧
      (runCycles s cycles).2.1.countP isCloseArduino = 1 ∧
      endsWithCleanup (runCycles s cycles).2.1 = true := by
  induction cycles with
  | nil =>
    intro s h
    rw [runCycles_nil] at h
    exact absurd h (by simp)
  | cons c rest ih =>
    intro s h
    by_cases hb : budgetDone s
    · rw [runCycles_budget s c rest hb] at h
      exact absurd h (by simp)
    · cases hr : (execute_run s c.tRun c.runScript).outcome with
      | interrupted =>
        rw [runCycles_runInt s c rest hb hr] at h
        exact absurd h (by simp)
      | exhausted =>
        rw [runCycles_runExh s c rest hb hr] at h
        exact absurd h (by simp)
      | completed =>
        by_cases hb2 :
          budgetDone (bumpRun (execute_run s c.tRun c.runScript).state)
        · rw [runCycles_finish2 s c rest hb hr hb2] at h
          exact absurd h (by simp)
        · cases hbo : (enter_break
            (bumpRun (execute_run s c.tRun c.runScript).state)
            c.tA c.tB c.breakTicks).outcome with
          | interrupted =>
            rw [runCycles_breakInt s c rest hb hr hb2 hbo]
            obtain ⟨er1, er2⟩ := execute_run_counts s c.tRun c.runScript
            obtain ⟨br1, br2, _⟩ := enter_break_interrupted_counts
              (bumpRun (execute_run s c.tRun c.runScript).state)
              c.tA c.tB c.breakTicks hbo
            obtain ⟨tc1, tc2⟩ := terminate_counts
            obtain ⟨cc1, cc2⟩ := cleanup_counts (enter_break
              (bumpRun (execute_run s c.tRun c.runScript).state)
              c.tA c.tB c.breakTicks).state
            refine ⟨?_, ?_, ?_⟩
            · simp [List.countP_append, er1, br1, tc1, cc1]
            · simp [List.countP_append, er2, br2, tc2, cc2]
            · exact endsWithCleanup_append_cleanup _ _
          | typeError =>
            rw [runCycles_breakErr s c rest hb hr hb2 hbo] at h
            exact absurd h (by simp)
          | exhausted =>
            rw [runCycles_breakExh s c rest hb hr hb2 hbo] at h
            exact absurd h (by simp)
          | normal =>
            rw [runCycles_next s c rest hb hr hb2 hbo] at h ⊢
            dsimp only at h ⊢
            obtain ⟨ih1, ih2, ih3⟩ := ih _ h
            obtain ⟨er1, er2⟩ := execute_run_counts s c.tRun c.runScript
            obtain ⟨bn1, bn2⟩ := enter_break_other_counts
              (bumpRun (execute_run s c.tRun c.runScript).state)
              c.tA c.tB c.breakTicks (by rw [hbo]; simp)
            refine ⟨?_, ?_, ?_⟩
            · simp [List.countP_append, er1, bn1, ih1]
            · simp [List.countP_append, er2, bn2, ih2]
            · exact endsWithCleanup_append_left _ _ ih3

/-- Concrete experiment state used by witnesses: Manual exposure, two
samples, `constant_interval`, infinite run budget, pins LOW, CSV open. -/
def sManual : ExpState :=
  { exposureMode := "Manual"
    numSamples := 2
    intervalMinutes := 30
    intervalMode := "constant_interval"
    turnOffCameras := true
    totalRuns := -1
    sampleExposures := none
    visitCounts := [0, 0]
    runCount := 0
    runStartTime := none
    nextRunStartTime := none
    diRun := false
    diCaptureComplete := false
    csvClosed := false }

/-- A poll iteration on which the controller holds `DO_RUN_COMPLETE` HIGH. -/
def pollComplete : PollInput :=
  { captureEdge := false, runComplete := true, quitKey := false,
    capture := { detectedExposure := 100, frames := [0] } }

/-- A cycle whose break is interrupted on its first wait iteration. -/
def cycInterrupted : CycleScript :=
  { tRun := 0, runScript := [pollComplete], tA := 0, tB := 0,
    breakTicks := [{ now := 0, interrupt := true }] }

/-- Counterexample to claim C10 as stated: one completed run, then Ctrl+C
during the break.  The claim says `cleanup` executes exactly twice (once
from `enter_break`'s handler, once from `run`'s `finally`); in the source
the handler's first `terminate_experiment` call raises `NameError`
(undefined `get_folder_size`, util.py 164) before the handler's `cleanup()`
line, so the whole-run trace closes the Arduino exactly once — from `run`'s
`finally` — not twice.  (The interrupt is also never re-raised, so the
second report attempt comes from `except Exception`, not from the
`except KeyboardInterrupt` handler named by the claim.) -/
theorem C10_counterexample :
    (runCycles sManual [cycInterrupted]).2.2 = ExpOutcome.breakInterrupt ∧
    (runCycles sManual [cycInterrupted]).2.1.countP isCloseArduino = 1 ∧
    ¬ ((runCycles sManual [cycInterrupted]).2.1.countP isCloseArduino
        = 2) := by
  decide

/-- Claim C10 amended: if a KeyboardInterrupt occurs inside `enter_break`'s
wait loop, `terminate_experiment` is entered exactly twice over the whole of
`run` — once from `enter_break`'s handler and once from `run`'s
`except Exception` handler, which catches the `NameError` that
`generate_pdf_report` raises at the undefined `get_folder_size` (util.py
164) in place of the re-raised interrupt — but neither call completes a
report, `enter_break`'s handler `cleanup()` is skipped, and `cleanup`
executes exactly once, from `run`'s `finally` block, as the final events of
the trace. -/
theorem C10_break_interrupt_termination_counts (cycles : List CycleScript)
    (s : ExpState)
    (h : (runCycles s cycles).2.2 = ExpOutcome.breakInterrupt) :
    (runCycles s cycles).2.1.countP isReportCall = 2 ∧
    (runCycles s cycles).2.1.countP isCloseArduino = 1 ∧
    endsWithCleanup (runCycles s cycles).2.1 = true :=
  runCycles_breakInterrupt_shape cycles s h

/-- Witness for the amended C10: one completed run, then Ctrl+C during the
break; the whole-run trace holds exactly two attempted report calls, one
Arduino close, and ends with the `finally` cleanup block. -/
theorem C10_break_interrupt_termination_counts_witness :
    (runCycles sManual [cycInterrupted]).2.2 = ExpOutcome.breakInterrupt ∧
    ((runCycles sManual [cycInterrupted]).2.1.countP isReportCall = 2 ∧
      (runCycles sManual [cycInterrupted]).2.1.countP isCloseArduino = 1 ∧
      endsWithCleanup (runCycles sManual [cycInterrupted]).2.1 = true) :=
  ⟨by decide,
    C10_break_interrupt_termination_counts [cycInterrupted] sManual
      (by decide)⟩

def isSleep : Event → Bool
  | Event.sleepFor _ => true
  | _ => false

def isCsvRow : Event → Bool
  | Event.csvRow _ _ _ => true
  | _ => false

/-- Every capture row names a sample index below `num`. -/
def csvOkEv (num : Nat) : Event → Bool
  | Event.csvRow _ i _ => decide (i < num)
  | _ => true

theorem all_runEvOk_csvOk (num : Nat) (tr : List Event)
    (h : tr.all (runEvOk num) = true) : tr.all (csvOkEv num) = true := by
  rw [List.all_eq_true] at h ⊢
  intro e he
  have := h e he
  cases e <;> simp_all [runEvOk, csvOkEv]

theorem materializeTable_numSamples (s : ExpState) (t : Int) :
    (materializeTable (runInitState s t)).numSamples = s.numSamples :=
  (materializeTable_proj (runInitState s t)).2.1

/-- Claim C6: if more DO_CAPTURE rising edges arrive within one run than
`num_samples`, `execute_run` logs and ignores each excess edge.  The final
capture count never exceeds `num_samples`; every capture row written names a
sample index below `num_samples`; with no q-key press in the script no
interrupt is raised; and an iteration whose edge arrives with
`sample_index >= num_samples` contributes exactly one warning to the trace
and otherwise behaves as if the iteration had not happened. -/
theorem C6_excess_capture_signals_safe (s : ExpState) (t : Int)
    (script : List PollInput) (inp : PollInput) (rest : List PollInput)
    (idx : Nat) (h1 : inp.captureEdge = true) (h2 : s.numSamples ≤ idx) :
    (execute_run s t script).sampleIndex ≤ s.numSamples ∧
    (execute_run s t script).trace.all (csvOkEv s.numSamples) = true ∧
    (script.all (fun i => !i.quitKey) = true →
      (execute_run s t script).outcome ≠ RunOutcome.interrupted) ∧
    runLoop s idx (inp :: rest) =
      ⟨(runLoop s idx rest).state, (runLoop s idx rest).sampleIndex,
        Event.warnExtraSignal :: (runLoop s idx rest).trace,
        (runLoop s idx rest).outcome⟩ := by
  have hnum := materializeTable_numSamples s t
  obtain ⟨_, hbound, htrace, hint⟩ :=
    runLoop_inv script (materializeTable (runInitState s t)) 0
  have hcount : (runLoop (materializeTable (runInitState s t)) 0
      script).sampleIndex ≤ s.numSamples := by
    rw [← hnum]
    exact hbound (Nat.zero_le _)
  have hcsv : (runLoop (materializeTable (runInitState s t)) 0
      script).trace.all (csvOkEv s.numSamples) = true := by
    apply all_runEvOk_csvOk
    rw [hnum] at htrace
    exact htrace
  refine ⟨?_, ?_, ?_, runLoop_excess s idx inp rest h1 h2⟩
  · by_cases hc : (runLoop (materializeTable (runInitState s t)) 0
        script).outcome = RunOutcome.completed
    · rw [execute_run_eq_completed s t script hc]
      exact hcount
    · rw [execute_run_eq_other s t script hc]
      exact hcount
  · by_cases hc : (runLoop (materializeTable (runInitState s t)) 0
        script).outcome = RunOutcome.completed
    · rw [execute_run_eq_completed s t script hc]
      simp only [List.all_cons, List.all_append, Bool.and_eq_true]
      exact ⟨by simp [csvOkEv],
        ⟨⟨hcsv, by split <;> simp [csvOkEv]⟩, by simp [csvOkEv]⟩⟩
    · rw [execute_run_eq_other s t script hc]
      simp only [List.all_cons, Bool.and_eq_true]
      exact ⟨by simp [csvOkEv], hcsv⟩
  · intro hall
    by_cases hc : (runLoop (materializeTable (runInitState s t)) 0
        script).outcome = RunOutcome.completed
    · rw [execute_run_eq_completed s t script hc]
      simp
    · rw [execute_run_eq_other s t script hc]
      intro hout
      have hany := hint hout
      rw [List.any_eq_true] at hany
      obtain ⟨i, hi, hqi⟩ := hany
      have := List.all_eq_true.mp hall i hi
      simp [hqi] at this

/-- A poll iteration carrying a DO_CAPTURE rising edge. -/
def pollCapture : PollInput :=
  { captureEdge := true, runComplete := false, quitKey := false,
    capture := { detectedExposure := 100, frames := [0] } }

/-- Witness for C6 at a concrete state and script: two samples, a rising
edge arriving with `sample_index = 2`. -/
theorem C6_excess_capture_signals_safe_witness :
    (pollCapture.captureEdge = true ∧ sManual.numSamples ≤ 2) ∧
    ((execute_run sManual 0 [pollComplete]).sampleIndex ≤
        sManual.numSamples ∧
      (execute_run sManual 0 [pollComplete]).trace.all
        (csvOkEv sManual.numSamples) = true ∧
      ([pollComplete].all (fun i => !i.quitKey) = true →
        (execute_run sManual 0 [pollComplete]).outcome ≠
          RunOutcome.interrupted) ∧
      runLoop sManual 2 (pollCapture :: [pollComplete]) =
        ⟨(runLoop sManual 2 [pollComplete]).state,
          (runLoop sManual 2 [pollComplete]).sampleIndex,
          Event.warnExtraSignal :: (runLoop sManual 2 [pollComplete]).trace,
          (runLoop sManual 2 [pollComplete]).outcome⟩) :=
  ⟨⟨by decide, by decide⟩,
    C6_excess_capture_signals_safe sManual 0 [pollComplete] pollCapture
      [pollComplete] 2 (by decide) (by decide)⟩

/-- `new_exposure_table` in terms of the pre-run state. -/
theorem newTableFlag_runInitState (s : ExpState) (t : Int) :
    newTableFlag (runInitState s t) = true ↔
      (s.exposureMode = "SetOnce" ∧ s.sampleExposures = none) := by
  unfold newTableFlag runInitState
  simp [Option.isNone_iff_eq_none]

/-- A partially populated SetOnce state: the exposure table was loaded but
sample 0 is still unknown. -/
def sSetOncePartial : ExpState :=
  { sManual with
    exposureMode := "SetOnce"
    sampleExposures := some [none, none] }

/-- A poll iteration with a capture edge, after which the controller already
holds run-complete HIGH. -/
def pollCaptureThenDone : PollInput :=
  { captureEdge := true, runComplete := true, quitKey := false,
    capture := { detectedExposure := 150, frames := [0] } }

/-- Counterexample to claim C2 as stated: in SetOnce mode, resuming from a
partially populated in-memory table, a completed run newly learns the
exposure of sample 0 (its entry goes from unknown to known) — yet
`save_exposure_table` is never invoked, because the save is keyed on
`new_exposure_table`, not on learning. -/
theorem C2_counterexample :
    (execute_run sSetOncePartial 0 [pollCaptureThenDone]).outcome =
      RunOutcome.completed ∧
    sSetOncePartial.exposureMode = "SetOnce" ∧
    sSetOncePartial.sampleExposures = some [none, none] ∧
    (((execute_run sSetOncePartial 0
        [pollCaptureThenDone]).state.sampleExposures.getD []).getD 0
        none).isSome = true ∧
    Event.saveTable ∉
      (execute_run sSetOncePartial 0 [pollCaptureThenDone]).trace := by
  decide

/-- Claim C2 amended: in a completed run, `save_exposure_table` is invoked
iff the exposure mode is SetOnce and `sample_exposures` was `None` at run
start (the table was freshly created this run) — regardless of whether any
exposure was actually learned; a run resuming an existing in-memory table
never saves, even when it learns missing entries. -/
theorem C2_amended_save_iff_fresh_table (s : ExpState) (t : Int)
    (script : List PollInput)
    (h : (execute_run s t script).outcome = RunOutcome.completed) :
    (Event.saveTable ∈ (execute_run s t script).trace ↔
      (s.exposureMode = "SetOnce" ∧ s.sampleExposures = none)) := by
  have hco : (runLoop (materializeTable (runInitState s t)) 0 script).outcome
      = RunOutcome.completed := by
    by_contra hc
    rw [execute_run_eq_other s t script hc] at h
    exact hc h
  rw [execute_run_eq_completed s t script hco]
  have hmode : (runLoop (materializeTable (runInitState s t)) 0
      script).state.exposureMode = s.exposureMode := by
    rw [(runLoop_state_proj script (materializeTable (runInitState s t)) 0).1]
    exact (materializeTable_proj (runInitState s t)).1
  have hnost : Event.saveTable ∉
      (runLoop (materializeTable (runInitState s t)) 0 script).trace :=
    all_runEvOk_no_saveTable _ _
      (runLoop_inv script (materializeTable (runInitState s t)) 0).2.2.1
  dsimp only
  rw [List.mem_cons, List.mem_append, List.mem_append]
  constructor
  · rintro (hst | (hst | hst) | hst)
    · exact absurd hst (by simp)
    · exact absurd hst hnost
    · revert hst
      split
      · rename_i hcond
        intro _
        exact (newTableFlag_runInitState s t).mp hcond.2
      · intro hst
        exact absurd hst (by simp)
    · exact absurd hst (by simp)
  · intro hcond
    refine Or.inr (Or.inl (Or.inr ?_))
    rw [if_pos ⟨by rw [hmode]; exact hcond.1,
      (newTableFlag_runInitState s t).mpr hcond⟩]
    simp

/-- A fresh SetOnce state with no table yet. -/
def sSetOnceFresh : ExpState := { sManual with exposureMode := "SetOnce" }

/-- Witness for the amended C2: a fresh SetOnce run that completes — the
save happens iff the mode is SetOnce and the table was absent, which holds
here. -/
theorem C2_amended_save_iff_fresh_table_witness :
    (execute_run sSetOnceFresh 0 [pollComplete]).outcome =
      RunOutcome.completed ∧
    (Event.saveTable ∈ (execute_run sSetOnceFresh 0 [pollComplete]).trace ↔
      (sSetOnceFresh.exposureMode = "SetOnce" ∧
        sSetOnceFresh.sampleExposures = none)) :=
  ⟨by decide,
    C2_amended_save_iff_fresh_table sSetOnceFresh 0 [pollComplete]
      (by decide)⟩

theorem execute_run_schedule (s : ExpState) (t : Int)
    (script : List PollInput) :
    (execute_run s t script).state.runStartTime = some t ∧
    (execute_run s t script).state.nextRunStartTime =
      (if s.intervalMode = "constant_interval"
       then some (t + s.intervalMinutes * 60 * 1000)
       else s.nextRunStartTime) := by
  have hrs : (runLoop (materializeTable (runInitState s t)) 0
      script).state.runStartTime = some t := by
    rw [(runLoop_state_proj script (materializeTable (runInitState s t))
      0).2.2.2.1]
    rw [(materializeTable_proj (runInitState s t)).2.2.2.1]
    rfl
  have hns : (runLoop (materializeTable (runInitState s t)) 0
      script).state.nextRunStartTime =
      (if s.intervalMode = "constant_interval"
       then some (t + s.intervalMinutes * 60 * 1000)
       else s.nextRunStartTime) := by
    rw [(runLoop_state_proj script (materializeTable (runInitState s t))
      0).2.2.1]
    rw [(materializeTable_proj (runInitState s t)).2.2.1]
    rfl
  by_cases hc : (runLoop (materializeTable (runInitState s t)) 0
      script).outcome = RunOutcome.completed
  · rw [execute_run_eq_completed s t script hc]
    exact ⟨hrs, hns⟩
  · rw [execute_run_eq_other s t script hc]
    exact ⟨hrs, hns⟩

theorem enter_break_sleepOk (s : ExpState) (tA tB : Int)
    (ticks : List BreakTick) :
    (enter_break s tA tB ticks).trace.all sleepOk = true := by
  cases hn : scheduledNext s tA with
  | none =>
    rw [enter_break_typeError_eq s tA tB ticks hn]
    dsimp only
    split <;> simp [sleepOk]
  | some n =>
    by_cases h2 : n - tB ≤ 0
    · rw [enter_break_noTime_eq s tA tB ticks n hn h2]
      dsimp only
      simp only [List.all_append, List.all_cons, Bool.and_eq_true]
      constructor
      · split <;> simp [sleepOk]
      · simp [sleepOk]
    · rw [enter_break_wait_eq s tA tB ticks n hn h2]
      dsimp only
      simp only [List.all_append, Bool.and_eq_true]
      constructor
      · split <;> simp [sleepOk]
      · exact (breakLoop_inv ticks _ n false).2.1

theorem execute_run_sleepOk (s : ExpState) (t : Int)
    (script : List PollInput) :
    (execute_run s t script).trace.all sleepOk = true := by
  have hl := all_runEvOk_sleepOk _ _
    (runLoop_inv script (materializeTable (runInitState s t)) 0).2.2.1
  by_cases hc : (runLoop (materializeTable (runInitState s t)) 0
      script).outcome = RunOutcome.completed
  · rw [execute_run_eq_completed s t script hc]
    simp only [List.all_cons, List.all_append, Bool.and_eq_true]
    exact ⟨by simp [sleepOk], ⟨⟨hl, by split <;> simp [sleepOk]⟩,
      by simp [sleepOk]⟩⟩
  · rw [execute_run_eq_other s t script hc]
    simp only [List.all_cons, Bool.and_eq_true]
    exact ⟨by simp [sleepOk], hl⟩

/-- Claim C3: under `constant_interval` the next run start is computed at run
start as `run_start_time + interval_minutes * 60` seconds (here
milliseconds), so a long run eats into the following break; if no break time
remains at break entry, `enter_break` logs a warning and returns without any
wait; and neither `execute_run` nor `enter_break` ever invokes a sleep with a
negative duration. -/
theorem C3_constant_interval_schedule_and_sleep (s s2 s3 : ExpState)
    (t tA tB tA2 tB2 : Int) (script : List PollInput)
    (ticks ticks2 : List BreakTick) (n : Int)
    (h1 : s.intervalMode = "constant_interval")
    (h2 : scheduledNext s2 tA = some n) (h3 : n - tB ≤ 0) :
    ((execute_run s t script).state.runStartTime = some t ∧
      (execute_run s t script).state.nextRunStartTime =
        some (t + s.intervalMinutes * 60 * 1000)) ∧
    ((enter_break s2 tA tB ticks).outcome = BreakOutcome.normal ∧
      Event.warnNoBreakTime ∈ (enter_break s2 tA tB ticks).trace ∧
      (enter_break s2 tA tB ticks).trace.all (fun e => !isSleep e) = true) ∧
    ((enter_break s3 tA2 tB2 ticks2).trace.all sleepOk = true ∧
      (execute_run s t script).trace.all sleepOk = true) := by
  obtain ⟨hrs, hns⟩ := execute_run_schedule s t script
  refine ⟨⟨hrs, by rw [hns, if_pos h1]⟩, ?_, ?_⟩
  · rw [enter_break_noTime_eq s2 tA tB ticks n h2 h3]
    dsimp only
    refine ⟨rfl, by simp, ?_⟩
    simp only [List.all_append, List.all_cons, Bool.and_eq_true]
    constructor
    · split <;> simp [isSleep]
    · simp [isSleep]
  · exact ⟨enter_break_sleepOk s3 tA2 tB2 ticks2,
      execute_run_sleepOk s t script⟩

/-- A state already scheduled to resume at time 5 ms, in
`constant_interval` mode. -/
def sOverran : ExpState := { sManual with nextRunStartTime := some 5 }

/-- Witness for C3: a run in `constant_interval` mode schedules
`t + interval_minutes * 60` (ms: 1800000 for 30 minutes at t = 0), and a
break entered 10 ms after its scheduled resume time warns and skips the
wait; no sleep anywhere is negative. -/
theorem C3_constant_interval_schedule_and_sleep_witness :
    (sManual.intervalMode = "constant_interval" ∧
      scheduledNext sOverran 0 = some 5 ∧ (5 : Int) - 15 ≤ 0) ∧
    (((execute_run sManual 0 [pollComplete]).state.runStartTime = some 0 ∧
      (execute_run sManual 0 [pollComplete]).state.nextRunStartTime =
        some (0 + sManual.intervalMinutes * 60 * 1000)) ∧
    ((enter_break sOverran 0 15 []).outcome = BreakOutcome.normal ∧
      Event.warnNoBreakTime ∈ (enter_break sOverran 0 15 []).trace ∧
      (enter_break sOverran 0 15 []).trace.all (fun e => !isSleep e) = true) ∧
    ((enter_break sOverran 0 15 []).trace.all sleepOk = true ∧
      (execute_run sManual 0 [pollComplete]).trace.all sleepOk = true)) :=
  ⟨⟨by decide, by decide, by decide⟩,
    C3_constant_interval_schedule_and_sleep sManual sOverran sOverran 0 0 15
      0 15 [pollComplete] [] [] 5 (by decide) (by decide) (by decide)⟩

/-- The trace ends with the acknowledge handshake: `CAPTURE_COMPLETE` HIGH,
a one-second hold, `CAPTURE_COMPLETE` LOW. -/
def endsWithAck (tr : List Event) : Bool :=
  match tr.reverse with
  | e1 :: e2 :: e3 :: _ =>
    decide (e1 = Event.setCaptureComplete false) &&
    decide (e2 = Event.sleepFor 1000) &&
    decide (e3 = Event.setCaptureComplete true)
  | _ => false

theorem setOncePhase_no_csvRow (s : ExpState) (idx : Nat) (env : CaptureEnv) :
    (setOncePhase s idx env).2.all (fun e => !isCsvRow e) = true := by
  unfold setOncePhase
  split
  · split <;> simp [isCsvRow]
  · simp

/-- Claim C5: for every capture signal, the acknowledge handshake (HIGH,
settle delay, LOW on `DI_CAPTURE_COMPLETE`) completes even when the frame
grab fails; a failed grab logs an error, does not increment the visit count
of the sample, and writes no capture row — and the handler is a total
function, so the failure is never fatal to the run. -/
theorem C5_handshake_completes_on_grab_failure (s : ExpState) (idx : Nat)
    (env : CaptureEnv) :
    endsWithAck (handle_capture_signal s idx env).2 = true ∧
    (env.frames = [] →
      (handle_capture_signal s idx env).1.visitCounts = s.visitCounts ∧
      Event.errorNoFrames idx ∈ (handle_capture_signal s idx env).2 ∧
      (handle_capture_signal s idx env).2.all (fun e => !isCsvRow e) =
        true) := by
  constructor
  · unfold handle_capture_signal endsWithAck
    dsimp only
    rw [List.reverse_append]
    simp
  · intro hfr
    have hgr : grabPhase (setOncePhase s idx env).1 idx env =
        ((setOncePhase s idx env).1, [Event.errorNoFrames idx]) := by
      unfold grabPhase
      rw [if_pos (by simp [hfr])]
    obtain ⟨e, he⟩ := setOncePhase_frame s idx env
    refine ⟨?_, ?_, ?_⟩
    · unfold handle_capture_signal
      dsimp only
      rw [hgr]
      dsimp only
      rw [he]
    · unfold handle_capture_signal
      dsimp only
      rw [hgr]
      simp
    · unfold handle_capture_signal
      dsimp only
      rw [hgr]
      dsimp only
      simp only [List.all_append, List.all_cons, Bool.and_eq_true]
      exact ⟨⟨setOncePhase_no_csvRow s idx env, by simp [isCsvRow]⟩,
        by simp [isCsvRow]⟩

/-- Capture environment in which `grab_frames` returned no frames. -/
def envNoFrames : CaptureEnv := { detectedExposure := 100, frames := [] }

/-- Witness for C5: a failed grab at sample 0 — the handshake still
completes, the visit counts are untouched, the error is logged, and no
capture row is written. -/
theorem C5_handshake_completes_on_grab_failure_witness :
    endsWithAck (handle_capture_signal sManual 0 envNoFrames).2 = true ∧
    ((handle_capture_signal sManual 0 envNoFrames).1.visitCounts =
        sManual.visitCounts ∧
      Event.errorNoFrames 0 ∈ (handle_capture_signal sManual 0 envNoFrames).2 ∧
      (handle_capture_signal sManual 0 envNoFrames).2.all
        (fun e => !isCsvRow e) = true) :=
  ⟨(C5_handshake_completes_on_grab_failure sManual 0 envNoFrames).1,
    (C5_handshake_completes_on_grab_failure sManual 0 envNoFrames).2 rfl⟩

/-- A write forcing an owned output pin LOW. -/
def isPinLowWrite : Event → Bool
  | Event.setRun false => true
  | Event.setCaptureComplete false => true
  | _ => false

def isCloseCamerasEv : Event → Bool
  | Event.closeCamerasEvt => true
  | _ => false

/-- Greedy subsequence matcher: does the trace contain, in order, one event
per predicate? -/
def hasMatchSubseq : List (Event → Bool) → List Event → Bool
  | [], _ => true
  | _ :: _, [] => false
  | p :: ps, e :: es =>
    if p e then hasMatchSubseq ps es else hasMatchSubseq (p :: ps) es

/-- The teardown ordering asserted by the claim: some output line forced
LOW, later the frame source closed, later the capture log closed, later the
report produced — in that order. -/
def claimedTeardownOrder (tr : List Event) : Bool :=
  hasMatchSubseq [isPinLowWrite, isCloseCamerasEv, isCloseCsvEv, isReportCall] tr

/-- A state idle in a scheduled break: pins LOW, CSV open, next run far in
the future. -/
def sBreak7 : ExpState := { sManual with nextRunStartTime := some 1000000 }

/-- Counterexample to claim C7 as stated: on a cancellation mid-break the
report is attempted (`generate_pdf_report` is invoked — though it raises
`NameError` at the undefined `get_folder_size` and never completes), but no
teardown step writes an output pin and the handler closes nothing — the
claimed order (force lines LOW, close frame source, close log, report)
never occurs in the trace. -/
theorem C7_counterexample :
    (enter_break sBreak7 0 0 [{ now := 0, interrupt := true }]).outcome =
      BreakOutcome.interrupted ∧
    Event.reportAttempt ∈
      (enter_break sBreak7 0 0 [{ now := 0, interrupt := true }]).trace ∧
    claimedTeardownOrder
      (enter_break sBreak7 0 0 [{ now := 0, interrupt := true }]).trace =
      false := by
  decide

/-- Claim C7 amended: on cancellation during a break the report is only
attempted, never produced — `enter_break`'s handler invokes
`terminate_experiment`, but `generate_pdf_report` raises `NameError` at the
undefined `get_folder_size` (util.py 164), so the handler's own `cleanup()`
and re-raise are skipped: the break closes neither the Arduino nor the CSV
log and leaves the state untouched.  No teardown step writes an output pin;
both owned pins end LOW only because normal run operation already left them
LOW.  The resources are instead closed exactly once, by `run`'s `finally`
block, whose `cleanup` events (Arduino close, camera close, CSV close) end
the whole-run trace. -/
theorem C7_amended_break_cancellation_teardown (s : ExpState) (tA tB : Int)
    (ticks : List BreakTick) (s4 : ExpState) (cycles : List CycleScript)
    (hRun : s.diRun = false) (hCC : s.diCaptureComplete = false)
    (hout : (enter_break s tA tB ticks).outcome = BreakOutcome.interrupted)
    (hout4 : (runCycles s4 cycles).2.2 = ExpOutcome.breakInterrupt) :
    Event.reportAttempt ∈ (enter_break s tA tB ticks).trace ∧
    (enter_break s tA tB ticks).state.diRun = false ∧
    (enter_break s tA tB ticks).state.diCaptureComplete = false ∧
    (enter_break s tA tB ticks).state.csvClosed = s.csvClosed ∧
    (enter_break s tA tB ticks).trace.all (fun e => !isPinWrite e) = true ∧
    (enter_break s tA tB ticks).trace.countP isCloseArduino = 0 ∧
    (enter_break s tA tB ticks).trace.countP isCloseCsvEv = 0 ∧
    (runCycles s4 cycles).2.1.countP isCloseArduino = 1 ∧
    endsWithCleanup (runCycles s4 cycles).2.1 = true := by
  obtain ⟨_, hcl4, hend4⟩ := runCycles_breakInterrupt_shape cycles s4 hout4
  cases hn : scheduledNext s tA with
  | none =>
    rw [enter_break_typeError_eq s tA tB ticks hn] at hout
    exact absurd hout (by simp)
  | some n =>
    by_cases h2 : n - tB ≤ 0
    · rw [enter_break_noTime_eq s tA tB ticks n hn h2] at hout
      exact absurd hout (by simp)
    · rw [enter_break_wait_eq s tA tB ticks n hn h2] at hout ⊢
      dsimp only at hout ⊢
      obtain ⟨hpins, _, hintc, _⟩ :=
        breakLoop_inv ticks { s with nextRunStartTime := some n } n false
      obtain ⟨hst, _, hclo, hcsv, pre, hpre⟩ := hintc hout
      refine ⟨?_, ?_, ?_, ?_, ?_, ?_, ?_, hcl4, hend4⟩
      · rw [List.mem_append, hpre]
        exact Or.inr (by simp)
      · rw [hst]
        exact hRun
      · rw [hst]
        exact hCC
      · rw [hst]
      · simp only [List.all_append, Bool.and_eq_true]
        constructor
        · split <;> simp [isPinWrite]
        · exact hpins
      · simp only [List.countP_append, hclo]
        split <;> simp [isCloseArduino]
      · simp only [List.countP_append, hcsv]
        split <;> simp [isCloseCsvEv]

/-- Witness for the amended C7 at the concrete mid-break cancellation of the
counterexample scenario, embedded in the whole run of the C10 scenario. -/
theorem C7_amended_break_cancellation_teardown_witness :
    (sBreak7.diRun = false ∧ sBreak7.diCaptureComplete = false ∧
      (enter_break sBreak7 0 0 [{ now := 0, interrupt := true }]).outcome =
        BreakOutcome.interrupted ∧
      (runCycles sManual [cycInterrupted]).2.2 =
        ExpOutcome.breakInterrupt) ∧
    (Event.reportAttempt ∈
      (enter_break sBreak7 0 0 [{ now := 0, interrupt := true }]).trace ∧
    (enter_break sBreak7 0 0 [{ now := 0, interrupt := true }]).state.diRun =
      false ∧
    (enter_break sBreak7 0 0
      [{ now := 0, interrupt := true }]).state.diCaptureComplete = false ∧
    (enter_break sBreak7 0 0
      [{ now := 0, interrupt := true }]).state.csvClosed =
      sBreak7.csvClosed ∧
    (enter_break sBreak7 0 0 [{ now := 0, interrupt := true }]).trace.all
      (fun e => !isPinWrite e) = true ∧
    (enter_break sBreak7 0 0 [{ now := 0, interrupt := true }]).trace.countP
      isCloseArduino = 0 ∧
    (enter_break sBreak7 0 0 [{ now := 0, interrupt := true }]).trace.countP
      isCloseCsvEv = 0 ∧
    (runCycles sManual [cycInterrupted]).2.1.countP isCloseArduino = 1 ∧
    endsWithCleanup (runCycles sManual [cycInterrupted]).2.1 = true) :=
  ⟨⟨by decide, by decide, by decide, by decide⟩,
    C7_amended_break_cancellation_teardown sBreak7 0 0
      [{ now := 0, interrupt := true }] sManual [cycInterrupted]
      (by decide) (by decide) (by decide) (by decide)⟩

/-- Claim C9: `validate_config` never inspects `interval_calculation_mode`
(its result is unchanged by replacing that field with any value, so any
misconfigured mode passes startup validation); for a configured mode other
than `constant_interval` and `constant_break`, `execute_run` leaves
`next_run_start_time` unassigned (`None`), and the first `enter_break` then
raises a `TypeError` at the remaining-time subtraction, leaving the schedule
still unassigned — the misconfiguration only surfaces after the first run. -/
theorem C9_unvalidated_interval_mode_fails_late (c : Config) (m : String)
    (s s2 : ExpState) (t : Int) (script : List PollInput) (tA tB : Int)
    (ticks : List BreakTick)
    (hm1 : m ≠ "constant_interval") (hm2 : m ≠ "constant_break")
    (hs : s.intervalMode = m) (hnone : s.nextRunStartTime = none)
    (hs2 : s2.intervalMode = m) (hnone2 : s2.nextRunStartTime = none) :
    validate_config { c with interval_calculation_mode := some m } =
      validate_config c ∧
    (execute_run s t script).state.nextRunStartTime = none ∧
    (enter_break s2 tA tB ticks).outcome = BreakOutcome.typeError ∧
    (enter_break s2 tA tB ticks).state.nextRunStartTime = none := by
  have hsched : scheduledNext s2 tA = none := by
    unfold scheduledNext
    rw [hs2, if_neg hm2]
    exact hnone2
  refine ⟨?_, ?_, ?_, ?_⟩
  · cases c
    rfl
  · rw [(execute_run_schedule s t script).2, hs, if_neg hm1]
    exact hnone
  · rw [enter_break_typeError_eq s2 tA tB ticks hsched]
  · rw [enter_break_typeError_eq s2 tA tB ticks hsched]

/-- A valid configuration, with a bogus `interval_calculation_mode`. -/
def cfg0 : Config :=
  { camera_exposure_time := some 5000
    camera_width := some 2448
    camera_height := some 2048
    exposure_mode := some "Manual"
    input_DO_CAPTURE := some 2
    input_DO_RUN_COMPLETE := some 3
    output_DI_RUN := some 4
    output_DI_CAPTURE_COMPLETE := some 5
    auto_detect_port := some false
    port := some "COM3"
    number_of_samples := 2
    interval_minutes := some 30
    total_runs := some (-1)
    display_images := some true
    interval_calculation_mode := some "always" }

/-- State configured with a bogus interval mode. -/
def sBadMode : ExpState := { sManual with intervalMode := "always" }

/-- Witness for C9: with `interval_calculation_mode = always`, validation is
oblivious, a run leaves the schedule unassigned, and the first break raises
`TypeError`. -/
theorem C9_unvalidated_interval_mode_fails_late_witness :
    (("always" : String) ≠ "constant_interval" ∧
      ("always" : String) ≠ "constant_break" ∧
      sBadMode.intervalMode = "always" ∧
      sBadMode.nextRunStartTime = none) ∧
    (validate_config { cfg0 with interval_calculation_mode := some "always" } =
        validate_config cfg0 ∧
      (execute_run sBadMode 0 [pollComplete]).state.nextRunStartTime = none ∧
      (enter_break sBadMode 0 0 []).outcome = BreakOutcome.typeError ∧
      (enter_break sBadMode 0 0 []).state.nextRunStartTime = none) :=
  ⟨⟨by decide, by decide, by decide, by decide⟩,
    C9_unvalidated_interval_mode_fails_late cfg0 "always" sBadMode sBadMode 0
      [pollComplete] 0 0 [] (by decide) (by decide) (by decide) (by decide)
      (by decide) (by decide)⟩

/-! ## Decimal rendering and parsing round-trip -/

/-- Value of a least-significant-first digit list. -/
def valRev : List Nat → Nat
  | [] => 0
  | d :: ds => d + 10 * valRev ds

theorem natDigitsRevFuel_valRev :
    ∀ (fuel n : Nat), n ≤ fuel → valRev (natDigitsRevFuel fuel n) = n := by
  intro fuel
  induction fuel with
  | zero =>
    intro n hn
    interval_cases n
    rfl
  | succ f ih =>
    intro n hn
    unfold natDigitsRevFuel
    by_cases h0 : n = 0
    · rw [if_pos h0, h0]
      rfl
    · rw [if_neg h0]
      unfold valRev
      have hdiv : n / 10 ≤ f := by
        have : n / 10 < n := Nat.div_lt_self (Nat.pos_of_ne_zero h0)
          (by omega)
        omega
      rw [ih (n / 10) hdiv]
      omega

theorem natDigitsRevFuel_lt10 :
    ∀ (fuel n d : Nat), d ∈ natDigitsRevFuel fuel n → d < 10 := by
  intro fuel
  induction fuel with
  | zero =>
    intro n d hd
    simp [natDigitsRevFuel] at hd
  | succ f ih =>
    intro n d hd
    unfold natDigitsRevFuel at hd
    by_cases h0 : n = 0
    · rw [if_pos h0] at hd
      simp at hd
    · rw [if_neg h0] at hd
      rcases List.mem_cons.mp hd with h | h
      · subst h
        exact Nat.mod_lt _ (by omega)
      · exact ih _ _ h

theorem digitVal_digitChar (d : Nat) (h : d < 10) :
    digitVal (digitChar d) = d := by
  interval_cases d <;> decide

theorem isDigitChar_digitChar (d : Nat) (h : d < 10) :
    isDigitChar (digitChar d) = true := by
  interval_cases d <;> decide

theorem digit_not_space (c : Char) (h : isDigitChar c = true) :
    isSpaceChar c = false := by
  simp only [isDigitChar, Bool.and_eq_true, decide_eq_true_eq] at h
  simp only [isSpaceChar, Bool.or_eq_false_iff, decide_eq_false_iff_not]
  refine ⟨⟨⟨?_, ?_⟩, ?_⟩, ?_⟩ <;>
    · rintro rfl
      revert h
      decide

theorem valFold_reverse (ds : List Nat) :
    (ds.reverse).foldl (fun a d => a * 10 + d) 0 = valRev ds := by
  induction ds with
  | nil => rfl
  | cons d ds ih =>
    rw [List.reverse_cons, List.foldl_append]
    dsimp only [List.foldl]
    rw [ih]
    simp only [valRev]
    omega

theorem foldl_digitChar (ms : List Nat) :
    (∀ d ∈ ms, d < 10) → ∀ init : Nat,
      List.foldl (fun a c => a * 10 + digitVal c) init (ms.map digitChar) =
        List.foldl (fun a d => a * 10 + d) init ms := by
  induction ms with
  | nil =>
    intro _ init
    rfl
  | cons d ds ih =>
    intro h init
    rw [List.map_cons]
    dsimp only [List.foldl]
    rw [digitVal_digitChar d (h d (by simp))]
    exact ih (fun x hx => h x (by simp [hx])) _

theorem natDigits_chars (n : Nat) :
    ∀ c ∈ natDigits n, isDigitChar c = true := by
  intro c hc
  unfold natDigits at hc
  by_cases h0 : n = 0
  · rw [if_pos h0] at hc
    simp at hc
    subst hc
    decide
  · rw [if_neg h0] at hc
    rw [List.mem_map] at hc
    obtain ⟨d, hd, rfl⟩ := hc
    rw [List.mem_reverse] at hd
    exact isDigitChar_digitChar d (natDigitsRevFuel_lt10 n n d hd)

theorem natDigits_ne_nil (n : Nat) : natDigits n ≠ [] := by
  unfold natDigits
  by_cases h0 : n = 0
  · rw [if_pos h0]
    simp
  · rw [if_neg h0]
    simp only [ne_eq, List.map_eq_nil_iff, List.reverse_eq_nil_iff]
    unfold natDigitsRev
    cases hn : n with
    | zero => exact absurd hn h0
    | succ m =>
      unfold natDigitsRevFuel
      simp

theorem digitsVal_natDigits (n : Nat) : digitsVal (natDigits n) = n := by
  unfold natDigits digitsVal
  by_cases h0 : n = 0
  · rw [if_pos h0, h0]
    decide
  · rw [if_neg h0]
    unfold natDigitsRev
    rw [foldl_digitChar _ (fun d hd => natDigitsRevFuel_lt10 n n d
      (List.mem_reverse.mp hd)) 0]
    rw [valFold_reverse]
    exact natDigitsRevFuel_valRev n n (le_refl n)

theorem pyIsNumeric_natDigits (n : Nat) : pyIsNumeric (natDigits n) = true := by
  unfold pyIsNumeric
  rw [Bool.and_eq_true, List.all_eq_true]
  exact ⟨by simp [natDigits_ne_nil n], natDigits_chars n⟩

theorem dropWhile_space_id (l : List Char)
    (h : ∀ c ∈ l, isSpaceChar c = false) :
    l.dropWhile isSpaceChar = l := by
  cases l with
  | nil => rfl
  | cons c cs =>
    rw [List.dropWhile_cons, if_neg (by simp [h c (by simp)])]

theorem pyTrim_of_noSpace (l : List Char)
    (h : ∀ c ∈ l, isSpaceChar c = false) : pyTrim l = l := by
  unfold pyTrim
  rw [dropWhile_space_id l h,
    dropWhile_space_id l.reverse (fun c hc => h c (List.mem_reverse.mp hc)),
    List.reverse_reverse]

theorem pyTrim_natDigits (n : Nat) : pyTrim (natDigits n) = natDigits n :=
  pyTrim_of_noSpace _ (fun c hc => digit_not_space c (natDigits_chars n c hc))

theorem pyParseInt_digits (t : List Char) (hne : t ≠ [])
    (hall : ∀ c ∈ t, isDigitChar c = true) (htrim : pyTrim t = t) :
    pyParseInt t = some ((digitsVal t : Nat) : Int) := by
  unfold pyParseInt
  rw [htrim]
  cases t with
  | nil => exact absurd rfl hne
  | cons c cs =>
    have hc : isDigitChar c = true := hall c (by simp)
    have hnum : pyIsNumeric (c :: cs) = true := by
      unfold pyIsNumeric
      rw [Bool.and_eq_true, List.all_eq_true]
      exact ⟨by simp, hall⟩
    split
    · rename_i rest heq
      rw [List.cons.injEq] at heq
      rw [heq.1] at hc
      exact absurd hc (by decide)
    · rename_i rest heq
      rw [List.cons.injEq] at heq
      rw [heq.1] at hc
      exact absurd hc (by decide)
    · rw [if_pos hnum]

theorem pyParseInt_natDigits (i : Nat) :
    pyParseInt (natDigits i) = some (i : Int) := by
  rw [pyParseInt_digits (natDigits i) (natDigits_ne_nil i) (natDigits_chars i)
    (pyTrim_natDigits i)]
  rw [digitsVal_natDigits]

/-- What one persisted cell loads back as, as derived from the source:
`str()` of a nonnegative int is all digits, so it parses back as a float of
the same value; everything else — `None`, negative ints (leading minus) and
floats (decimal point) — fails `isnumeric()` and loads as unknown. -/
def loadedCell : Option PyNum → Option PyNum
  | some (PyNum.int n) =>
    if 0 ≤ n then some (PyNum.float n.toNat [0]) else none
  | _ => none

/-- Cells for which the persisted value survives the round trip with its
numeric value intact: unknown, or a nonnegative int (what
`Camera.set_auto_exposure` actually produces). -/
def intCellOk : Option PyNum → Bool
  | none => true
  | some (PyNum.int n) => decide (0 ≤ n)
  | some (PyNum.float _ _) => false

theorem mem_dropWhile_of_not_space (c : Char) (l : List Char) (hc : c ∈ l)
    (hns : isSpaceChar c = false) : c ∈ l.dropWhile isSpaceChar := by
  have hsplit : c ∈ l.takeWhile isSpaceChar ++ l.dropWhile isSpaceChar := by
    rw [List.takeWhile_append_dropWhile]
    exact hc
  rcases List.mem_append.mp hsplit with h | h
  · have := List.mem_takeWhile_imp h
    rw [hns] at this
    exact absurd this (by simp)
  · exact h

theorem mem_pyTrim (c : Char) (l : List Char) (hc : c ∈ l)
    (hns : isSpaceChar c = false) : c ∈ pyTrim l := by
  unfold pyTrim
  rw [List.mem_reverse]
  exact mem_dropWhile_of_not_space c _
    (List.mem_reverse.mpr (mem_dropWhile_of_not_space c l hc hns)) hns

theorem pyIsNumeric_false_of_mem (c : Char) (l : List Char) (hc : c ∈ l)
    (hnd : isDigitChar c = false) : pyIsNumeric l = false := by
  unfold pyIsNumeric
  have : l.all isDigitChar = false := by
    rw [List.all_eq_false]
    exact ⟨c, hc, by simp [hnd]⟩
  simp [this]

theorem listSetPy_nat (acc : List (Option PyNum)) (i : Nat)
    (v : Option PyNum) (hi : i < acc.length) :
    listSetPy acc (i : Int) v = some (acc.set i v) := by
  unfold listSetPy
  rw [if_pos ⟨by omega, by exact_mod_cast hi⟩]
  simp

theorem loadRow_save_cell (acc : List (Option PyNum)) (i : Nat)
    (c : Option PyNum) (hi : i < acc.length) :
    loadRow acc (natDigits i, renderCell c) =
      some (acc.set i (loadedCell c)) := by
  unfold loadRow
  rw [pyParseInt_natDigits i]
  dsimp only
  cases c with
  | none =>
    rw [show pyIsNumeric (pyTrim (renderCell none)) = false from by decide]
    simp only [Bool.false_eq_true, if_false]
    exact listSetPy_nat acc i none hi
  | some v =>
    cases v with
    | int n =>
      by_cases hn : 0 ≤ n
      · have hrender : renderCell (some (PyNum.int n)) = natDigits n.toNat := by
          simp only [renderCell, pyStrNum, pyStrInt]
          rw [if_neg (by omega)]
        have hcell : loadedCell (some (PyNum.int n)) =
            some (PyNum.float n.toNat [0]) := by
          simp only [loadedCell]
          rw [if_pos hn]
        rw [hrender, pyTrim_natDigits, pyIsNumeric_natDigits]
        simp only [if_true]
        rw [digitsVal_natDigits, hcell]
        exact listSetPy_nat acc i _ hi
      · have hrender : renderCell (some (PyNum.int n)) =
            '-' :: natDigits n.natAbs := by
          simp only [renderCell, pyStrNum, pyStrInt]
          rw [if_pos (by omega)]
        have hcell : loadedCell (some (PyNum.int n)) = none := by
          simp only [loadedCell]
          rw [if_neg hn]
        have hmem : ('-' : Char) ∈ pyTrim (renderCell (some (PyNum.int n))) := by
          rw [hrender]
          exact mem_pyTrim _ _ (by simp) (by decide)
        rw [pyIsNumeric_false_of_mem _ _ hmem (by decide)]
        simp only [Bool.false_eq_true, if_false]
        rw [hcell]
        exact listSetPy_nat acc i none hi
    | float ip ds =>
      have hmem : ('.' : Char) ∈ pyTrim (renderCell (some (PyNum.float ip ds))) := by
        refine mem_pyTrim _ _ ?_ (by decide)
        simp only [renderCell, pyStrNum]
        simp
      rw [pyIsNumeric_false_of_mem _ _ hmem (by decide)]
      simp only [Bool.false_eq_true, if_false]
      rw [show loadedCell (some (PyNum.float ip ds)) = none from rfl]
      exact listSetPy_nat acc i none hi

/-- The table as it stands after loading the saved rows: positions `off` and
beyond overwritten one by one with the loaded form of each cell. -/
def overwriteFrom (acc : List (Option PyNum)) (off : Nat) :
    List (Option PyNum) → List (Option PyNum)
  | [] => acc
  | c :: cs => overwriteFrom (acc.set off (loadedCell c)) (off + 1) cs

theorem loadRows_save_go (tbl : List (Option PyNum)) :
    ∀ (acc : List (Option PyNum)) (off : Nat),
      off + tbl.length ≤ acc.length →
      loadRows acc ((List.enumFrom off tbl).map
        (fun p => (natDigits p.1, renderCell p.2))) =
        (overwriteFrom acc off tbl, false) := by
  induction tbl with
  | nil =>
    intro acc off _
    rfl
  | cons c cs ih =>
    intro acc off hlen
    rw [List.enumFrom_cons, List.map_cons]
    unfold loadRows
    rw [loadRow_save_cell acc off c (by simp at hlen; omega)]
    unfold overwriteFrom
    exact ih _ (off + 1) (by simp at hlen ⊢; omega)

theorem set_append_len (pre : List (Option PyNum)) (x : Option PyNum)
    (rest : List (Option PyNum)) (v : Option PyNum) :
    (pre ++ x :: rest).set pre.length v = pre ++ v :: rest := by
  induction pre with
  | nil => rfl
  | cons p ps ih => simp [List.set, ih]

theorem overwriteFrom_replicate (tbl : List (Option PyNum)) :
    ∀ pre : List (Option PyNum),
      overwriteFrom (pre ++ List.replicate tbl.length none) pre.length tbl =
        pre ++ tbl.map loadedCell := by
  induction tbl with
  | nil =>
    intro pre
    simp [overwriteFrom]
  | cons c cs ih =>
    intro pre
    rw [List.length_cons, List.replicate_succ]
    unfold overwriteFrom
    rw [set_append_len]
    have := ih (pre ++ [loadedCell c])
    rw [List.length_append] at this
    simpa using this

/-- Counterexample to claim C4 as stated: the exposure table holding the
single learned decimal value 123.5 saves as the text 123.5, which fails
`isnumeric()` (it contains a decimal point), so loading returns the table
with that entry unknown — the learned value does not round-trip. -/
theorem C4_counterexample :
    pyStrNum (PyNum.float 123 [5]) = "123.5".data ∧
    (load_exposure_table 1
      (save_exposure_table [some (PyNum.float 123 [5])])).1 = [none] ∧
    (load_exposure_table 1
      (save_exposure_table [some (PyNum.float 123 [5])])).2 = false := by
  decide

/-- Claim C4 amended: `save_exposure_table` followed by `load_exposure_table`
reproduces the mapping only for tables whose learned entries are nonnegative
integers (which is what the code itself stores, since
`Camera.set_auto_exposure` returns an int): every such value round-trips
with its numeric value intact (as a float) and every unknown entry
round-trips as unknown, with no load error; learned values whose rendering
contains a decimal point or minus sign round-trip as unknown instead. -/
theorem C4_amended_roundtrip (table : List (Option PyNum))
    (h : table.all intCellOk = true) :
    (load_exposure_table table.length (save_exposure_table table)).2 =
      false ∧
    (load_exposure_table table.length (save_exposure_table table)).1 =
      table.map loadedCell ∧
    (table.map loadedCell).map (Option.map pyRat) =
      table.map (Option.map pyRat) := by
  have hload : load_exposure_table table.length (save_exposure_table table) =
      (overwriteFrom (List.replicate table.length none) 0 table, false) := by
    unfold load_exposure_table save_exposure_table
    rw [show table.enum = List.enumFrom 0 table from rfl]
    exact loadRows_save_go table _ 0 (by simp)
  have hover : overwriteFrom (List.replicate table.length none) 0 table =
      table.map loadedCell := by
    have := overwriteFrom_replicate table []
    simpa using this
  refine ⟨by rw [hload], by rw [hload, hover], ?_⟩
  rw [List.map_map]
  apply List.map_congr_left
  intro cell hcell
  have hc := List.all_eq_true.mp h cell hcell
  cases cell with
  | none => rfl
  | some v =>
    cases v with
    | int n =>
      have hn : 0 ≤ n := by simpa [intCellOk] using hc
      have hl : loadedCell (some (PyNum.int n)) =
          some (PyNum.float n.toNat [0]) := by
        simp only [loadedCell]
        rw [if_pos hn]
      have hval : pyRat (PyNum.float n.toNat [0]) = pyRat (PyNum.int n) := by
        simp only [pyRat, valOfDigits, List.foldl, List.length_cons,
          List.length_nil]
        have h2 : ((n.toNat : ℤ) : ℚ) = ((n : ℤ) : ℚ) := by
          rw [Int.toNat_of_nonneg hn]
        push_cast at h2 ⊢
        rw [h2]
        norm_num
      show Option.map pyRat (loadedCell (some (PyNum.int n))) =
        Option.map pyRat (some (PyNum.int n))
      rw [hl]
      simp [hval]
    | float ip ds => simp [intCellOk] at hc

/-- Witness for the amended C4 on a concrete table: one learned integer
exposure and one unknown entry both survive the round trip. -/
theorem C4_amended_roundtrip_witness :
    ([some (PyNum.int 800), none].all intCellOk = true) ∧
    ((load_exposure_table 2
        (save_exposure_table [some (PyNum.int 800), none])).2 = false ∧
      (load_exposure_table 2
        (save_exposure_table [some (PyNum.int 800), none])).1 =
        [some (PyNum.int 800), none].map loadedCell ∧
      ([some (PyNum.int 800), none].map loadedCell).map (Option.map pyRat) =
        [some (PyNum.int 800), none].map (Option.map pyRat)) :=
  ⟨by decide,
    C4_amended_roundtrip [some (PyNum.int 800), none] (by decide)⟩

theorem loadRows_abort (rows1 : List (List Char × List Char)) :
    ∀ (t : List (Option PyNum)) (rows2 : List (List Char × List Char))
      (bad : List Char × List Char),
      (loadRows t rows1).2 = false →
      loadRow (loadRows t rows1).1 bad = none →
      loadRows t (rows1 ++ bad :: rows2) = ((loadRows t rows1).1, true) := by
  induction rows1 with
  | nil =>
    intro t rows2 bad _ hbad
    show loadRows t (bad :: rows2) = ((loadRows t []).1, true)
    unfold loadRows
    rw [show loadRow t bad = none from hbad]
  | cons r rs ih =>
    intro t rows2 bad hok hbad
    cases hlr : loadRow t r with
    | none =>
      exfalso
      have hgo : (loadRows t (r :: rs)).2 = true := by
        unfold loadRows
        rw [hlr]
      simp [hgo] at hok
    | some t3 =>
      have hstep : ∀ rr, loadRows t (r :: rr) = loadRows t3 rr := by
        intro rr
        conv_lhs => unfold loadRows
        rw [hlr]
      rw [List.cons_append, hstep (rs ++ bad :: rows2)]
      rw [hstep rs] at hok hbad
      rw [hstep rs]
      exact ih t3 rows2 bad hok hbad

/-- Counterexample to claim C8 as stated: a persisted table whose first row
has the malformed sample index abc followed by the well-formed row (1, 200).
`int()` raises on the first row, the exception aborts the whole loop (caught
only by the outer handler), and the well-formed second row is never loaded:
the result table has entry 1 still unknown, with the error flag set. -/
theorem C8_counterexample :
    (pyParseInt ("1".data) = some 1 ∧
      pyIsNumeric (pyTrim ("200".data)) = true) ∧
    load_exposure_table 2
      [("abc".data, "100".data), ("1".data, "200".data)] =
      ([none, none], true) := by
  decide

/-- Claim C8 amended: only a malformed exposure value is tolerated per row —
such a row loads as unknown and processing continues; a row whose sample
index does not parse (or is out of range) raises inside the loop, so the
rows before it are kept, that row and every later row are dropped, and the
error is caught by the surrounding handler (logged, not fatal at startup). -/
theorem C8_amended_malformed_row_aborts
    (t t2 : List (Option PyNum)) (rows1 rows2 : List (List Char × List Char))
    (bad r : List Char × List Char) (idx : Int)
    (hok : (loadRows t rows1).2 = false)
    (hbad : loadRow (loadRows t rows1).1 bad = none)
    (h1 : pyParseInt r.1 = some idx)
    (h2 : pyIsNumeric (pyTrim r.2) = false) :
    loadRows t (rows1 ++ bad :: rows2) = ((loadRows t rows1).1, true) ∧
    loadRow t2 r = listSetPy t2 idx none := by
  constructor
  · exact loadRows_abort rows1 t rows2 bad hok hbad
  · unfold loadRow
    rw [h1]
    dsimp only
    rw [h2]
    simp

/-- Witness for the amended C8: one good row, then a bad-index row, then
another good row — the first is kept, the rest dropped, error flagged; and a
row with a parsable index but non-numeric value loads that entry as
unknown. -/
theorem C8_amended_malformed_row_aborts_witness :
    ((loadRows (List.replicate 2 (none : Option PyNum))
        [("0".data, "100".data)]).2 = false ∧
      loadRow (loadRows (List.replicate 2 (none : Option PyNum))
        [("0".data, "100".data)]).1 ("abc".data, "x".data) = none ∧
      pyParseInt ("0".data) = some 0 ∧
      pyIsNumeric (pyTrim ("bad".data)) = false) ∧
    (loadRows (List.replicate 2 (none : Option PyNum))
        ([("0".data, "100".data)] ++ ("abc".data, "x".data) ::
          [("1".data, "200".data)]) =
      ((loadRows (List.replicate 2 (none : Option PyNum))
        [("0".data, "100".data)]).1, true) ∧
      loadRow [none] ("0".data, "bad".data) = listSetPy [none] 0 none) :=
  ⟨⟨by decide, by decide, by decide, by decide⟩,
    C8_amended_malformed_row_aborts (List.replicate 2 none) [none]
      [("0".data, "100".data)] [("1".data, "200".data)]
      ("abc".data, "x".data) ("0".data, "bad".data) 0 (by decide) (by decide)
      (by decide) (by decide)⟩
